import Mathlib

/-! Jailhouse Roll Call (`main.go`).

A shallow embedding of `getJails` and `showJails`.

The program is glue between four library packages.  What the packages do with
the outside world (parsing a URL, the network round trip, reading the body,
the lexical layer of JSON, running the template) is taken as the environment
`Env`; what the program itself decides (which request is built, what is done
with every error, which JSON key fills which field, the prefix loop, what is
written to the browser) is defined here and proved about.
-/

namespace Jrc

/-! ## Go strings -/

/-- A Go `string`: an immutable sequence of bytes. -/
abbrev GoString := List UInt8

/-- The bytes of a string literal of the Go source (Go source text is UTF-8). -/
def str (s : String) : GoString := s.toUTF8.data.toList

namespace strings

/-- Go `strings.HasPrefix`:
`return len(s) >= len(prefix) && s[:len(prefix)] == prefix`. -/
def HasPrefix (s pre : GoString) : Bool :=
  decide (s.length ≥ pre.length) && (s.take pre.length == pre)

/-- Go `strings.TrimPrefix`:
`if HasPrefix(s, prefix) { return s[len(prefix):] }; return s`. -/
def TrimPrefix (s pre : GoString) : GoString :=
  if HasPrefix s pre then s.drop pre.length else s

end strings

/-! ## Errors -/

/-- A non-nil Go `error` value.  A Go result of type `error` is an
`Option GoError`, with `none` for `nil`. -/
inductive GoError
  /-- `*json.SyntaxError`: the input is not JSON text. -/
  | SyntaxError (msg : GoString)
  /-- `*json.UnmarshalTypeError`: a JSON value of kind `value` does not fit the
  Go target named `target`. -/
  | UnmarshalTypeError (value : GoString) (target : GoString)
  /-- Any other error: of `url.Parse`, of the transport, of the body reader,
  of the template. -/
  | other (msg : GoString)
deriving DecidableEq, Repr

/-! ## Data model (`main.go` lines 21-27, 50-57) -/

/-- `type Config struct` (lines 21-24). -/
structure Config where
  APIURL : GoString
  APIKey : GoString
deriving DecidableEq, Repr

/-- `type JailAttributes struct` (lines 50-57). -/
structure JailAttributes where
  Id : Int
  Name : GoString
  Status : GoString
  Release : GoString
  Address : GoString
  LastStarted : GoString
deriving DecidableEq, Repr

/-- The zero value of `JailAttributes`. -/
def JailAttributes.zero : JailAttributes :=
  { Id := 0, Name := [], Status := [], Release := [], Address := [], LastStarted := [] }

/-! ## `net/http`: headers, requests, responses -/

/-- Go `http.Header`, a `map[string][]string`, as an association list with one
entry per key.  Every key this program passes (`Authorization`,
`Content-Length`, `Content-Type`, `X-Content-Type-Options`) already is in
canonical MIME form, so the canonicalisation the methods apply is the identity
on them and is left out. -/
abbrev Header := List (GoString × List GoString)

namespace Header

/-- The values stored under `key` (`h[key]`, nil when absent). -/
def Values (h : Header) (key : GoString) : List GoString :=
  (h.lookup key).getD []

/-- Go `Header.Del`. -/
def Del (h : Header) (key : GoString) : Header :=
  h.filter (fun kv => kv.1 != key)

/-- Store `vs` under `key`: in place when the key is present, as a new entry
otherwise. -/
def put (h : Header) (key : GoString) (vs : List GoString) : Header :=
  if h.any (fun kv => kv.1 == key) then
    h.map (fun kv => if kv.1 == key then (key, vs) else kv)
  else h ++ [(key, vs)]

/-- Go `Header.Set`: `h[key] = []string{value}`. -/
def Set (h : Header) (key value : GoString) : Header :=
  put h key [value]

/-- Go `Header.Add`: `h[key] = append(h[key], value)`. -/
def Add (h : Header) (key value : GoString) : Header :=
  put h key (Values h key ++ [value])

end Header

/-- A Go `url.URL`: a URL in parts, as `url.Parse` makes it of a text (the
scheme in lower case, the fragment apart, `User` the userinfo before the
host). -/
structure URL where
  Scheme : GoString
  User : GoString
  Host : GoString
  Path : GoString
  RawQuery : GoString
  Fragment : GoString
deriving DecidableEq, Repr

/-- The fields of an outbound `http.Request` this program determines.  `URL`
is the parsed target; `Body` is `none` for a nil body; `Host` is the host the
request names. -/
structure Request where
  Method : GoString
  URL : URL
  Header : Header
  Body : Option GoString
  Host : GoString
deriving DecidableEq, Repr

/-- The upstream `response.Body`, an `io.ReadCloser`: the bytes it yields and
the error, if any, that ends the reading before EOF. -/
structure ReadCloser where
  data : GoString
  err : Option GoError
deriving DecidableEq, Repr

/-- Go `io.ReadAll`: everything read until EOF or the first error, and that
error. -/
def ReadAll (r : ReadCloser) : GoString × Option GoError :=
  (r.data, r.err)

/-- The fields of the upstream `http.Response` in reach of this program. -/
structure Response where
  StatusCode : Nat
  Body : ReadCloser
deriving DecidableEq, Repr

/-! ## `encoding/json`: values -/

/-- A JSON number literal: sign, the value of the integer digits, and the text
of the fraction and exponent (empty when the literal has neither). -/
structure Number where
  neg : Bool
  digits : Nat
  rest : GoString
deriving DecidableEq, Repr

/-- A JSON value as the scanner of `encoding/json` delivers it: strings and
object keys unquoted, object members in input order, duplicates kept. -/
inductive JSON
  | null
  | bool (b : Bool)
  | number (n : Number)
  | string (s : GoString)
  | array (elems : List JSON)
  | object (members : List (GoString × JSON))

/-! ## The environment -/

/-- What the libraries do with the outside world. -/
structure Env where
  /-- The global `config`, set once by `init` (lines 26, 38-41). -/
  config : Config
  /-- Go `url.Parse`: the URL a text spells, or the error. -/
  urlParse : GoString → Except GoError URL
  /-- What one call `client.Do(request)` of the default client `&http.Client{}`
  returns: the final response, or the error. -/
  Do : Request → Except GoError Response
  /-- The requests the client puts on the wire during one call
  `client.Do(request)`, in order: none when no connection is made, one in the
  plain case, more when the client follows redirects or the transport sends a
  request again. -/
  sent : Request → List Request
  /-- The scanner of `encoding/json`: the value a byte sequence spells, or the
  syntax error. -/
  scan : GoString → Except GoError JSON
  /-- `tmpl.Execute` on a list of jails: the chunks it writes to its writer, in
  order, before it returns, and the error it returns. -/
  tmpl : List JailAttributes → List GoString × Option GoError

/-! ## `encoding/json`: decoding into `[]JailAttributes` -/

namespace json

/-- The fields of `JailAttributes`, in declaration order. -/
inductive Field
  | Id | Name | Status | Release | Address | LastStarted
deriving DecidableEq, Repr

/-- The JSON name of a field: its struct tag (lines 51-56). -/
def Field.name : Field → GoString
  | .Id => str "jid"
  | .Name => str "id"
  | .Status => str "state"
  | .Release => str "release"
  | .Address => str "ip4_addr"
  | .LastStarted => str "last_started"

/-- All fields, in declaration order. -/
def fields : List Field :=
  [.Id, .Name, .Status, .Release, .Address, .LastStarted]

/-- Case folding of an object key, as far as matching an ASCII field name goes:
ASCII letters fold to upper case, and so do the two non-ASCII runes whose fold
orbit holds an ASCII letter, U+017F (bytes 197 191, folds with `S`) and U+212A
(bytes 226 132 170, folds with `K`).  Every other byte is kept.  The first
argument counts the continuation bytes of such a rune still to be passed. -/
def foldFrom : Nat → GoString → GoString
  | _, [] => []
  | skip + 1, _ :: rest => foldFrom skip rest
  | 0, c :: rest =>
    if c = 197 ∧ rest.head? = some 191 then 83 :: foldFrom 1 rest
    else if c = 226 ∧ rest.head? = some 132 ∧ (rest.drop 1).head? = some 170 then
      75 :: foldFrom 2 rest
    else (if 97 ≤ c ∧ c ≤ 122 then c - 32 else c) :: foldFrom 0 rest

/-- The folded form of an object key or field name. -/
def foldName (name : GoString) : GoString :=
  foldFrom 0 name

/-- The struct field an object key addresses: the field whose JSON name is the
key exactly, or else one whose name equals the key under case folding; `none`
for every other key, which `Unmarshal` ignores. -/
def findField (key : GoString) : Option Field :=
  match fields.find? (fun f => f.name == key) with
  | some f => some f
  | none => fields.find? (fun f => foldName f.name == foldName key)

/-- Go `int` on the 64-bit targets: the range `strconv.ParseInt(s, 10, 64)`
accepts. -/
def parseInt (n : Number) : Option Int :=
  if n.rest ≠ [] then none
  else
    let v : Int := if n.neg then -(n.digits : Int) else (n.digits : Int)
    if -(2 ^ 63 : Int) ≤ v ∧ v < (2 ^ 63 : Int) then some v else none

/-- The word `UnmarshalTypeError.Value` carries for a JSON value. -/
def kind : JSON → GoString
  | .null => str "null"
  | .bool _ => str "bool"
  | .number _ => str "number"
  | .string _ => str "string"
  | .array _ => str "array"
  | .object _ => str "object"

/-- Go `d.saveError`: the first type error met is the one kept. -/
def saveError (saved err : Option GoError) : Option GoError :=
  match saved with
  | some e => some e
  | none => err

/-- Store a JSON string into field `f`: string fields take it, `Id` does not. -/
def storeString (f : Field) (s : GoString) (j : JailAttributes) :
    JailAttributes × Option GoError :=
  match f with
  | .Id => (j, some (.UnmarshalTypeError (str "string") f.name))
  | .Name => ({ j with Name := s }, none)
  | .Status => ({ j with Status := s }, none)
  | .Release => ({ j with Release := s }, none)
  | .Address => ({ j with Address := s }, none)
  | .LastStarted => ({ j with LastStarted := s }, none)

/-- Store a JSON number into field `f`: `Id` takes an integer literal in range,
string fields take none. -/
def storeNumber (f : Field) (n : Number) (j : JailAttributes) :
    JailAttributes × Option GoError :=
  match f with
  | .Id =>
    match parseInt n with
    | some i => ({ j with Id := i }, none)
    | none => (j, some (.UnmarshalTypeError (str "number") f.name))
  | _ => (j, some (.UnmarshalTypeError (str "number") f.name))

/-- Decode one JSON value into field `f` of `j`: `null` has no effect, a value
of the wrong kind leaves the field as it is and reports a type error. -/
def store (f : Field) (v : JSON) (j : JailAttributes) : JailAttributes × Option GoError :=
  match v with
  | .null => (j, none)
  | .string s => storeString f s j
  | .number n => storeNumber f n j
  | .bool _ => (j, some (.UnmarshalTypeError (str "bool") f.name))
  | .array _ => (j, some (.UnmarshalTypeError (str "array") f.name))
  | .object _ => (j, some (.UnmarshalTypeError (str "object") f.name))

/-- Decode the members of a JSON object into the struct `j`, in input order: a
key that addresses no field is skipped, a later member overwrites an earlier
one, and decoding goes on after a type error. -/
def object (members : List (GoString × JSON)) (j : JailAttributes)
    (saved : Option GoError) : JailAttributes × Option GoError :=
  match members with
  | [] => (j, saved)
  | (key, v) :: rest =>
    match findField key with
    | none => object rest j saved
    | some f => object rest (store f v j).1 (saveError saved (store f v j).2)

/-- Decode one array element into the struct `j`. -/
def value (v : JSON) (j : JailAttributes) (saved : Option GoError) :
    JailAttributes × Option GoError :=
  match v with
  | .object members => object members j saved
  | .null => (j, saved)
  | other => (j, saveError saved (some (.UnmarshalTypeError (kind other) (str "main.JailAttributes"))))

/-- Decode the elements of a JSON array into a slice, each into a zero-valued
element. -/
def array (elems : List JSON) (saved : Option GoError) :
    List JailAttributes × Option GoError :=
  match elems with
  | [] => ([], saved)
  | v :: rest =>
    ((value v JailAttributes.zero saved).1 :: (array rest (value v JailAttributes.zero saved).2).1,
      (array rest (value v JailAttributes.zero saved).2).2)

/-- Go `json.Unmarshal(data, &jails)` for `var jails []JailAttributes` (nil):
the content of `jails` afterwards, and the error returned.  Invalid JSON text
is refused before anything is decoded; `null` leaves the slice nil; a value
that is no array is a type error; an array is decoded element by element, and
the earliest type error, if any, is returned once the whole array is
decoded. -/
def Unmarshal (scan : GoString → Except GoError JSON) (data : GoString) :
    List JailAttributes × Option GoError :=
  match scan data with
  | .error err => ([], some err)
  | .ok .null => ([], none)
  | .ok (.array elems) => array elems none
  | .ok other => ([], some (.UnmarshalTypeError (kind other) (str "[]main.JailAttributes")))

end json

/-! ## `net/http`: building a request, answering one -/

namespace http

/-- Go `http.StatusOK`. -/
def StatusOK : Nat := 200

/-- Go `http.StatusInternalServerError`. -/
def StatusInternalServerError : Nat := 500

/-- A byte allowed in an HTTP token (RFC 7230). -/
def isTokenByte (c : UInt8) : Bool :=
  (48 ≤ c && c ≤ 57) || (65 ≤ c && c ≤ 90) || (97 ≤ c && c ≤ 122) ||
    [33, 35, 36, 37, 38, 39, 42, 43, 45, 46, 94, 95, 96, 124, 126].contains c

/-- Go `validMethod`: a non-empty token. -/
def validMethod (method : GoString) : Bool :=
  !method.isEmpty && method.all isTokenByte

/-- Go `strings.LastIndex(s, c)` for a one-byte `c`, counted from `i`: the
index of the last occurrence, `last` when there is none. -/
def lastIndexFrom (c : UInt8) : GoString → Int → Int → Int
  | [], _, last => last
  | b :: rest, i, last => lastIndexFrom c rest (i + 1) (if b = c then i else last)

/-- Go `hasPort`: `strings.LastIndex(s, ":") > strings.LastIndex(s, "]")`. -/
def hasPort (host : GoString) : Bool :=
  decide (lastIndexFrom 58 host 0 (-1) > lastIndexFrom 93 host 0 (-1))

/-- Go `removeEmptyPort`: `if hasPort(host) { return strings.TrimSuffix(host, ":") }`. -/
def removeEmptyPort (host : GoString) : GoString :=
  if hasPort host && host.getLast? = some 58 then host.dropLast else host

/-- Go `http.NewRequest(method, url, body)`: an empty method means GET; an
invalid method or a URL that does not parse is an error; the request holds
the parsed URL, with an empty port removed from its host, that host as `Host`,
and an empty header. -/
def NewRequest (urlParse : GoString → Except GoError URL) (method url : GoString)
    (body : Option GoString) : Except GoError Request :=
  let method := if method.isEmpty then str "GET" else method
  if !validMethod method then .error (.other (str "net/http: invalid method"))
  else
    match urlParse url with
    | .error err => .error err
    | .ok u =>
      .ok { Method := method, URL := { u with Host := removeEmptyPort u.Host }, Header := [],
            Body := body, Host := removeEmptyPort u.Host }

/-- The state of an `http.ResponseWriter`: the header map the handler edits,
whether the status line has been written, the status and header that were
written, and the body bytes written so far. -/
structure ResponseWriter where
  handlerHeader : Header
  wroteHeader : Bool
  status : Nat
  header : Header
  body : GoString
deriving DecidableEq, Repr

/-- The writer the server hands to a handler: nothing written yet. -/
def ResponseWriter.fresh : ResponseWriter :=
  { handlerHeader := [], wroteHeader := false, status := 0, header := [], body := [] }

/-- A Go panic, with its message. -/
abbrev Panic := GoString

/-- Go `ResponseWriter.WriteHeader(code)`: once the status line is written a
further call is ignored (the server only logs it); a code outside 100..999
panics; a 1xx code sends an informational header and leaves the final one
open; any other code is written with the header map as it stands. -/
def ResponseWriter.WriteHeader (w : ResponseWriter) (code : Nat) : Except Panic ResponseWriter :=
  if w.wroteHeader then .ok w
  else if code < 100 ∨ code > 999 then .error (str "invalid WriteHeader code")
  else if code < 200 then .ok w
  else .ok { w with wroteHeader := true, status := code, header := w.handlerHeader }

/-- Go `ResponseWriter.Write(data)`: if the status line is not written yet,
`WriteHeader(http.StatusOK)` comes first; then the bytes follow the body. -/
def ResponseWriter.Write (w : ResponseWriter) (data : GoString) : Except Panic ResponseWriter :=
  match (if w.wroteHeader then .ok w else w.WriteHeader StatusOK) with
  | .error p => .error p
  | .ok w1 => .ok { w1 with body := w1.body ++ data }

/-- Go `http.Error(w, error, code)`: drop `Content-Length`, set the two
plain-text headers, `w.WriteHeader(code)`, `fmt.Fprintln(w, error)`. -/
def Error (w : ResponseWriter) (error : GoString) (code : Nat) : Except Panic ResponseWriter :=
  let h := w.handlerHeader.Del (str "Content-Length")
  let h := h.Set (str "Content-Type") (str "text/plain; charset=utf-8")
  let h := h.Set (str "X-Content-Type-Options") (str "nosniff")
  match ({ w with handlerHeader := h } : ResponseWriter).WriteHeader code with
  | .error p => .error p
  | .ok w1 => w1.Write (error ++ str "\n")

end http

namespace template

/-- Write the chunks to `w` in order. -/
def writeAll (w : http.ResponseWriter) : List GoString → Except http.Panic http.ResponseWriter
  | [] => .ok w
  | c :: rest =>
    match w.Write c with
    | .error p => .error p
    | .ok w1 => writeAll w1 rest

/-- Go `tmpl.Execute(wr, data)`: the template writes its output to `wr` as it
goes; when it fails, what it wrote before stays written. -/
def Execute (tmpl : List JailAttributes → List GoString × Option GoError)
    (wr : http.ResponseWriter) (data : List JailAttributes) :
    Except http.Panic (http.ResponseWriter × Option GoError) :=
  match writeAll wr (tmpl data).1 with
  | .error p => .error p
  | .ok w1 => .ok (w1, (tmpl data).2)

end template

/-! ## `main.go` -/

/-- What the program itself does to the outside world, in order: its calls
into the libraries.  What a call of `client.Do` puts on the wire is not an
event of the program; it is `Env.sent` of the request. -/
inductive Event
  /-- One call `client.Do(request)` (line 91). -/
  | Do (request : Request)
  /-- The deferred `response.Body.Close()` (line 95). -/
  | Close
  /-- The call `tmpl.Execute(wr, jails)` (line 128). -/
  | Execute (jails : List JailAttributes)
deriving DecidableEq, Repr

/-- The marker `"vnet0|"` of line 111. -/
def marker : GoString := str "vnet0|"

/-- The loop of lines 110-112 from index `i` on, with `k` iterations left:
`jails[i].Address = strings.TrimPrefix(jail.Address, "vnet0|")`, where `jail`
is the copy of element `i` the `range` clause makes. -/
def trimLoop : Nat → Nat → List JailAttributes → List JailAttributes
  | 0, _, jails => jails
  | k + 1, i, jails =>
    match jails[i]? with
    | none => jails
    | some jail =>
      trimLoop k (i + 1)
        (jails.set i { jail with Address := strings.TrimPrefix jail.Address marker })

/-- The result of `getJails`: the events it caused and its two return
values. -/
structure GetJails where
  events : List Event
  jails : List JailAttributes
  err : Option GoError
deriving DecidableEq, Repr

/-- `func getJails() ([]JailAttributes, error)` (lines 78-115). -/
def getJails (env : Env) : GetJails :=
  match http.NewRequest env.urlParse (str "GET") env.config.APIURL none with
  | .error err => { events := [], jails := [], err := some err }
  | .ok request =>
    let request : Request :=
      { request with
        Header := request.Header.Add (str "Authorization") (str "Bearer " ++ env.config.APIKey) }
    match env.Do request with
    | .error err => { events := [.Do request], jails := [], err := some err }
    | .ok response =>
      match ReadAll response.Body with
      | (_, some err) => { events := [.Do request, .Close], jails := [], err := some err }
      | (body, none) =>
        match json.Unmarshal env.scan body with
        | (_, some err) => { events := [.Do request, .Close], jails := [], err := some err }
        | (jails, none) =>
          { events := [.Do request, .Close], jails := trimLoop jails.length 0 jails, err := none }

/-- The result of `showJails`: the events it caused and the response writer
it leaves, or the panic that ended it. -/
structure ShowJails where
  events : List Event
  response : Except http.Panic http.ResponseWriter

/-- `func showJails(wr http.ResponseWriter, r *http.Request)` (lines 118-131). -/
def showJails (env : Env) (wr : http.ResponseWriter) (_r : Request) : ShowJails :=
  let got := getJails env
  match got.err with
  | some _ =>
    { events := got.events,
      response := http.Error wr (str "Failed to retrieve jails") http.StatusInternalServerError }
  | none =>
    { events := got.events ++ [.Execute got.jails],
      response :=
        match template.Execute env.tmpl wr got.jails with
        | .error p => .error p
        | .ok (wr1, some _) =>
          http.Error wr1 (str "Failed to render template") http.StatusInternalServerError
        | .ok (wr1, none) => .ok wr1 }

/-! ## Vocabulary of the specification -/

namespace json

/-- The content of field `f` of a record: an `int` or a `string`. -/
def Field.get (f : Field) (j : JailAttributes) : Int ⊕ GoString :=
  match f with
  | .Id => .inl j.Id
  | .Name => .inr j.Name
  | .Status => .inr j.Status
  | .Release => .inr j.Release
  | .Address => .inr j.Address
  | .LastStarted => .inr j.LastStarted

/-- The Go value a JSON value is for field `f`, when it is of the field's
type: an integer literal in range for `Id`, a string for the other fields. -/
def goValue (f : Field) (v : JSON) : Option (Int ⊕ GoString) :=
  match f, v with
  | .Id, .number n => (parseInt n).map Sum.inl
  | .Id, _ => none
  | _, .string s => some (.inr s)
  | _, _ => none

/-- A JSON integer literal that fits a Go `int`, as that integer. -/
def asInt : JSON → Option Int
  | .number n => parseInt n
  | _ => none

/-- A JSON string, as its text. -/
def asText : JSON → Option GoString
  | .string s => some s
  | _ => none

/-- The last value `pick` accepts among the members whose key addresses the
same field as `tag` does: the key is `tag`, or differs from it in case only
and is no tag itself. -/
def lastUnder {α : Type} (tag : GoString) (pick : JSON → Option α) :
    List (GoString × JSON) → Option α
  | [] => none
  | (key, v) :: rest =>
    match lastUnder tag pick rest with
    | some x => some x
    | none => if findField key = findField tag then pick v else none

/-- The last integer under a key that addresses `tag`, 0 when there is none. -/
def intUnder (tag : GoString) (members : List (GoString × JSON)) : Int :=
  (lastUnder tag asInt members).getD 0

/-- The last string under a key that addresses `tag`, empty when there is
none. -/
def textUnder (tag : GoString) (members : List (GoString × JSON)) : GoString :=
  (lastUnder tag asText members).getD []

/-- The members of a JSON object; no members for any other value. -/
def members : JSON → List (GoString × JSON)
  | .object ms => ms
  | _ => []

/-- The record a JSON element spells, tag by tag. -/
def recordOf (v : JSON) : JailAttributes :=
  { Id := intUnder (str "jid") (members v),
    Name := textUnder (str "id") (members v),
    Status := textUnder (str "state") (members v),
    Release := textUnder (str "release") (members v),
    Address := textUnder (str "ip4_addr") (members v),
    LastStarted := textUnder (str "last_started") (members v) }

end json

/-- What one iteration of the loop does to a record. -/
def trimmed (jail : JailAttributes) : JailAttributes :=
  { jail with Address := strings.TrimPrefix jail.Address marker }

/-- The request the specification describes, for a configured URL that parses
as `u`: a GET to `u`, no body, one `Authorization` value `Bearer <key>`. -/
def bearerRequest (config : Config) (u : URL) : Request :=
  { Method := str "GET", URL := { u with Host := http.removeEmptyPort u.Host },
    Header := [(str "Authorization", [str "Bearer " ++ config.APIKey])], Body := none,
    Host := http.removeEmptyPort u.Host }

/-- The upstream answers the request of `getJails` with status `code` and a
body that reads to its end as `body`. -/
def Answers (env : Env) (code : Nat) (body : GoString) : Prop :=
  ∃ u, env.urlParse env.config.APIURL = .ok u ∧
    env.Do (bearerRequest env.config u) =
      .ok { StatusCode := code, Body := { data := body, err := none } }

/-- The header map `http.Error` leaves. -/
def errorHeader (h : Header) : Header :=
  ((h.Del (str "Content-Length")).Set (str "Content-Type")
    (str "text/plain; charset=utf-8")).Set (str "X-Content-Type-Options") (str "nosniff")

/-- The calls of `client.Do` among a list of events: the request of each, in
order. -/
def calls : List Event → List Request
  | [] => []
  | .Do request :: rest => request :: calls rest
  | _ :: rest => calls rest

/-- The requests that reach the wire in the course of a list of events: those
the client sends during each call of `client.Do`. -/
def wire (env : Env) : List Event → List Request
  | [] => []
  | .Do request :: rest => env.sent request ++ wire env rest
  | _ :: rest => wire env rest

/-- The lists of jails handed to the template among a list of events. -/
def rendered : List Event → List (List JailAttributes)
  | [] => []
  | .Execute jails :: rest => jails :: rendered rest
  | _ :: rest => rendered rest

/-- A configuration for the examples. -/
def demoConfig : Config :=
  { APIURL := str "http://truenas.local/api/v2.0/jail", APIKey := str "1-secret" }

/-- The URL `demoConfig.APIURL` spells. -/
def demoURL : URL :=
  { Scheme := str "http", User := [], Host := str "truenas.local",
    Path := str "/api/v2.0/jail", RawQuery := [], Fragment := [] }

/-- The request `getJails` builds from `demoConfig`. -/
def demoRequest : Request :=
  bearerRequest demoConfig demoURL

/-- An environment for the examples: the URL parses, the upstream answers with
status `code` and body `body`, the scanner reads `body` as `spelled` and
refuses every other text, and the template behaves as `page`. -/
def demoEnv (code : Nat) (body : GoString) (spelled : Except GoError JSON)
    (page : List GoString × Option GoError) : Env :=
  { config := demoConfig,
    urlParse := fun _ => .ok demoURL,
    Do := fun _ => .ok { StatusCode := code, Body := { data := body, err := none } },
    sent := fun request => [request],
    scan := fun data =>
      if data = body then spelled else .error (.SyntaxError (str "invalid character")),
    tmpl := fun _ => page }

/-- A JSON integer literal. -/
def num (n : Nat) : JSON := .number { neg := false, digits := n, rest := [] }

/-- A JSON string. -/
def txt (s : String) : JSON := .string (str s)

/-- The text of an upstream answer with four jails. -/
def rollBody : GoString :=
  str ("[\x7b\"jid\":1,\"id\":\"web\",\"state\":\"up\",\"release\":\"13.2-RELEASE\"," ++
    "\"ip4_addr\":\"vnet0|192.168.1.10/24\",\"last_started\":\"2024-10-25 09:00:00\"\x7d," ++
    "\x7b\"jid\":2,\"id\":\"db\",\"ip4_addr\":\"vnet0|vnet0|x\"\x7d," ++
    "\x7b\"jid\":3,\"id\":\"dns\",\"ip4_addr\":\"vnet1|a,vnet0|b\",\"boot\":true\x7d," ++
    "\x7b\"id\":\"off\",\"state\":\"down\",\"ip4_addr\":\"vnet0\"\x7d]")

/-- The JSON value `rollBody` spells. -/
def rollElems : List JSON :=
  [ .object [(str "jid", num 1), (str "id", txt "web"), (str "state", txt "up"),
      (str "release", txt "13.2-RELEASE"), (str "ip4_addr", txt "vnet0|192.168.1.10/24"),
      (str "last_started", txt "2024-10-25 09:00:00")],
    .object [(str "jid", num 2), (str "id", txt "db"), (str "ip4_addr", txt "vnet0|vnet0|x")],
    .object [(str "jid", num 3), (str "id", txt "dns"), (str "ip4_addr", txt "vnet1|a,vnet0|b"),
      (str "boot", .bool true)],
    .object [(str "id", txt "off"), (str "state", txt "down"), (str "ip4_addr", txt "vnet0")] ]

/-- The slice `json.Unmarshal` makes of `rollBody`. -/
def rollDecoded : List JailAttributes :=
  [ { Id := 1, Name := str "web", Status := str "up", Release := str "13.2-RELEASE",
      Address := str "vnet0|192.168.1.10/24", LastStarted := str "2024-10-25 09:00:00" },
    { Id := 2, Name := str "db", Status := [], Release := [],
      Address := str "vnet0|vnet0|x", LastStarted := [] },
    { Id := 3, Name := str "dns", Status := [], Release := [],
      Address := str "vnet1|a,vnet0|b", LastStarted := [] },
    { Id := 0, Name := str "off", Status := str "down", Release := [],
      Address := str "vnet0", LastStarted := [] } ]

/-- An upstream that answers 200 with `rollBody`; the template writes one
chunk and succeeds. -/
def rollEnv : Env :=
  demoEnv 200 rollBody (.ok (.array rollElems)) ([str "<table>"], none)

/-- The text of an upstream answer whose second element has a string where
`jid` wants a number. -/
def brokenBody : GoString :=
  str "[\x7b\"jid\":1,\"id\":\"web\"\x7d,\x7b\"jid\":\"two\"\x7d]"

/-- The JSON value `brokenBody` spells. -/
def brokenElems : List JSON :=
  [ .object [(str "jid", num 1), (str "id", txt "web")],
    .object [(str "jid", txt "two")] ]

/-- An upstream that answers 200 with `brokenBody`. -/
def brokenEnv : Env :=
  demoEnv 200 brokenBody (.ok (.array brokenElems)) ([str "<table>"], none)

/-- An upstream that answers 502 with a page that is not JSON. -/
def gatewayEnv : Env :=
  demoEnv 502 (str "<html>Bad Gateway</html>")
    (.error (.SyntaxError (str "invalid character '<' looking for beginning of value")))
    ([str "<table>"], none)

/-- A configuration whose URL does not parse; the error quotes the URL. -/
def urlEnv : Env :=
  { rollEnv with
    config := { APIURL := str "http://[::1", APIKey := str "1-secret" },
    urlParse := fun url =>
      .error (.other (str "parse " ++ url ++ str ": missing ']' in host")) }

/-- An upstream that cannot be reached: no connection, nothing sent. -/
def downEnv : Env :=
  { rollEnv with
    Do := fun _ => .error (.other (str "dial tcp: connection refused")),
    sent := fun _ => [] }

/-- The URL the upstream of `movedEnv` redirects to. -/
def replicaURL : URL :=
  { Scheme := str "http", User := [], Host := str "replica.local",
    Path := str "/api/v2.0/jail", RawQuery := [], Fragment := [] }

/-- The request the default client sends when `demoRequest` is answered with
`302 Found` and `Location: http://replica.local/api/v2.0/jail`: a GET to that
URL, with a `Referer`, and without the `Authorization` header, which the client
does not carry to another domain. -/
def followRequest : Request :=
  { Method := str "GET", URL := replicaURL,
    Header := [(str "Referer", [str "http://truenas.local/api/v2.0/jail"])],
    Body := none, Host := [] }

/-- An upstream that answers the request of `getJails` with a redirect to
`replicaURL`, where the jails of `rollEnv` are served: the client follows the
redirect inside the one call of `client.Do`. -/
def movedEnv : Env :=
  { rollEnv with sent := fun request => [request, followRequest] }

/-- An upstream that answers 401 with the body of `rollEnv`. -/
def deniedEnv : Env :=
  demoEnv 401 rollBody (.ok (.array rollElems)) ([str "<table>"], none)

/-- The upstream of `rollEnv`, with a template that fails after its first
chunk is written. -/
def stallEnv : Env :=
  demoEnv 200 rollBody (.ok (.array rollElems))
    ([str "<table>"], some (.other (str "template: can't evaluate field Uptime in type main.JailAttributes")))

namespace json

/-- A JSON value field `f` accepts: `null`, which leaves the field as it is, or
a value of the field's type. -/
def fits (f : Field) (v : JSON) : Bool :=
  match v with
  | .null => true
  | other => (goValue f other).isSome

/-- An array element `Unmarshal` accepts: `null`, or an object in which every
key that addresses a field holds a value the field accepts. -/
def elementDecodes : JSON → Bool
  | .null => true
  | .object members =>
    members.all (fun kv =>
      match findField kv.1 with
      | none => true
      | some f => fits f kv.2)
  | _ => false

/-- A JSON value `Unmarshal` accepts for a `[]JailAttributes`: `null`, or an
array of elements it accepts. -/
def decodes : JSON → Bool
  | .null => true
  | .array elems => elems.all elementDecodes
  | _ => false

end json

/-- The text of an upstream answer whose one object spells the key `jid` in
capitals. -/
def shoutBody : GoString :=
  str "[\x7b\"JID\":5\x7d]"

/-- The JSON value `shoutBody` spells. -/
def shoutElems : List JSON :=
  [ .object [(str "JID", num 5)] ]

/-- An upstream that answers 200 with `shoutBody`. -/
def shoutEnv : Env :=
  demoEnv 200 shoutBody (.ok (.array shoutElems)) ([str "<table>"], none)

/-- The text of an upstream answer whose one object has a well-typed `jid`, no
key `id`, and a number under the key `Id`. -/
def clashBody : GoString :=
  str "[\x7b\"jid\":1,\"Id\":7\x7d]"

/-- The JSON value `clashBody` spells. -/
def clashElems : List JSON :=
  [ .object [(str "jid", num 1), (str "Id", num 7)] ]

/-- An upstream that answers 200 with `clashBody`. -/
def clashEnv : Env :=
  demoEnv 200 clashBody (.ok (.array clashElems)) ([str "<table>"], none)

/-- The text of an upstream answer with a key in capitals, a `null` under a
tag, a `null` element and a key given twice. -/
def mixedBody : GoString :=
  str ("[\x7b\"JID\":5,\"id\":null,\"ip4_addr\":\"vnet0|10.0.0.5\"\x7d,null," ++
    "\x7b\"jid\":1,\"jid\":2,\"state\":\"up\"\x7d]")

/-- The JSON value `mixedBody` spells. -/
def mixedElems : List JSON :=
  [ .object [(str "JID", num 5), (str "id", .null), (str "ip4_addr", txt "vnet0|10.0.0.5")],
    .null,
    .object [(str "jid", num 1), (str "jid", num 2), (str "state", txt "up")] ]

/-- An upstream that answers 200 with `mixedBody`. -/
def mixedEnv : Env :=
  demoEnv 200 mixedBody (.ok (.array mixedElems)) ([str "<table>"], none)

/-- An upstream that answers 200 with the JSON text `null`. -/
def nullEnv : Env :=
  demoEnv 200 (str "null") (.ok .null) ([str "<table>"], none)

/-! ## Lemmas: strings and the loop -/

theorem marker_bytes : marker = [118, 110, 101, 116, 48, 124] := by decide

theorem strings.HasPrefix_iff (s pre : GoString) :
    strings.HasPrefix s pre = true ↔ pre <+: s := by
  unfold strings.HasPrefix
  constructor
  · intro h
    simp only [Bool.and_eq_true, decide_eq_true_eq, beq_iff_eq] at h
    have h3 := List.take_append_drop pre.length s
    rw [h.2] at h3
    exact ⟨s.drop pre.length, h3⟩
  · rintro ⟨t, rfl⟩
    simp

theorem strings.TrimPrefix_append (pre t : GoString) :
    strings.TrimPrefix (pre ++ t) pre = t := by
  have h : strings.HasPrefix (pre ++ t) pre = true :=
    (strings.HasPrefix_iff _ _).2 ⟨t, rfl⟩
  simp [strings.TrimPrefix, h]

theorem strings.TrimPrefix_of_not (s pre : GoString) (h : ¬ pre <+: s) :
    strings.TrimPrefix s pre = s := by
  have h1 : strings.HasPrefix s pre = false := by
    cases hp : strings.HasPrefix s pre
    · rfl
    · exact absurd ((strings.HasPrefix_iff _ _).1 hp) h
  simp [strings.TrimPrefix, h1]

theorem trimLoop_eq (k : Nat) : ∀ (done todo : List JailAttributes), todo.length ≤ k →
    trimLoop k done.length (done ++ todo) = done ++ todo.map trimmed := by
  induction k with
  | zero =>
    intro done todo h
    have : todo = [] := List.length_eq_zero.mp (Nat.le_zero.mp h)
    subst this
    simp [trimLoop]
  | succ k ih =>
    intro done todo h
    cases todo with
    | nil => simp [trimLoop]
    | cons jail rest =>
      have hget : (done ++ jail :: rest)[done.length]? = some jail := by
        rw [List.getElem?_append_right (le_refl _)]
        simp
      have hset : (done ++ jail :: rest).set done.length (trimmed jail)
          = (done ++ [trimmed jail]) ++ rest := by simp
      simp only [trimLoop, hget]
      have := ih (done ++ [trimmed jail]) rest (by simpa using h)
      simp only [List.length_append, List.length_singleton] at this
      show trimLoop k (done.length + 1) ((done ++ jail :: rest).set done.length (trimmed jail)) = _
      rw [hset, this]
      simp

theorem trimLoop_map (jails : List JailAttributes) :
    trimLoop jails.length 0 jails = jails.map trimmed := by
  simpa using trimLoop_eq jails.length [] jails (le_refl _)

/-! ## Lemmas: decoding -/

namespace json

theorem Field.get_ext (a b : JailAttributes) (h : ∀ f : Field, f.get a = f.get b) : a = b := by
  have h1 := h .Id
  have h2 := h .Name
  have h3 := h .Status
  have h4 := h .Release
  have h5 := h .Address
  have h6 := h .LastStarted
  cases a; cases b
  simp only [Field.get, Sum.inl.injEq, Sum.inr.injEq] at h1 h2 h3 h4 h5 h6
  simp [h1, h2, h3, h4, h5, h6]

theorem store_typed (f : Field) (v : JSON) (j : JailAttributes) (x : Int ⊕ GoString)
    (h : goValue f v = some x) :
    (store f v j).2 = none ∧ f.get (store f v j).1 = x ∧
      ∀ g : Field, g ≠ f → g.get (store f v j).1 = g.get j := by
  cases f <;> cases v <;> simp [goValue] at h
  all_goals first
    | (obtain ⟨i, hi, rfl⟩ := h
       refine ⟨by simp [store, storeNumber, hi], by simp [store, storeNumber, hi, Field.get], ?_⟩
       intro g hg
       cases g <;> simp [store, storeNumber, hi, Field.get] at hg ⊢)
    | (subst h
       refine ⟨by simp [store, storeString], by simp [store, storeString, Field.get], ?_⟩
       intro g hg
       cases g <;> simp [store, storeString, Field.get] at hg ⊢)

theorem saveError_none (saved : Option GoError) : saveError saved none = saved := by
  cases saved <;> rfl

theorem object_saved (members : List (GoString × JSON)) :
    ∀ (j : JailAttributes) (e : GoError), (object members j (some e)).2 = some e := by
  induction members with
  | nil => intro j e; rfl
  | cons kv rest ih =>
    obtain ⟨k, v⟩ := kv
    intro j e
    cases hf : findField k with
    | none => simp only [object, hf]; exact ih j e
    | some f => simp only [object, hf, saveError]; exact ih _ e

theorem value_saved (v : JSON) (j : JailAttributes) (e : GoError) :
    (value v j (some e)).2 = some e := by
  cases v <;> first | rfl | exact object_saved _ j e

theorem array_saved (elems : List JSON) :
    ∀ e : GoError, (array elems (some e)).2 = some e := by
  induction elems with
  | nil => intro e; rfl
  | cons v rest ih =>
    intro e
    simp only [array, value_saved]
    exact ih e

theorem store_untyped (f : Field) (v : JSON) (j : JailAttributes) (hnull : v ≠ .null)
    (h : goValue f v = none) : (store f v j).2 ≠ none := by
  cases v with
  | null => exact absurd rfl hnull
  | bool b => simp [store]
  | array l => simp [store]
  | object m => simp [store]
  | string s =>
    cases f <;> simp [goValue] at h
    simp [store, storeString]
  | number n =>
    cases f
    · simp [goValue] at h
      simp [store, storeNumber, h]
    all_goals simp [store, storeNumber]

theorem object_untyped (members : List (GoString × JSON)) :
    ∀ (j : JailAttributes) (saved : Option GoError) (k : GoString) (v : JSON) (f : Field),
      (k, v) ∈ members → findField k = some f → v ≠ .null → goValue f v = none →
      (object members j saved).2 ≠ none := by
  induction members with
  | nil => intro j saved k v f hmem; simp at hmem
  | cons kv rest ih =>
    obtain ⟨k0, v0⟩ := kv
    intro j saved k v f hmem hf hnull hval
    rcases List.mem_cons.1 hmem with heq | hrest
    · obtain ⟨rfl, rfl⟩ := Prod.mk.inj heq
      simp only [object, hf]
      cases hs : saveError saved (store f v j).2 with
      | some e => rw [object_saved]; simp
      | none =>
        exfalso
        have := store_untyped f v j hnull hval
        cases saved <;> simp [saveError] at hs
        exact this hs
    · cases hf0 : findField k0 with
      | none => simp only [object, hf0]; exact ih j saved k v f hrest hf hnull hval
      | some f0 => simp only [object, hf0]; exact ih _ _ k v f hrest hf hnull hval

theorem array_untyped (elems : List JSON) :
    ∀ (saved : Option GoError) (members : List (GoString × JSON)) (k : GoString) (v : JSON)
      (f : Field), JSON.object members ∈ elems → (k, v) ∈ members → findField k = some f →
      v ≠ .null → goValue f v = none → (array elems saved).2 ≠ none := by
  induction elems with
  | nil => intro saved members k v f hmem; simp at hmem
  | cons e rest ih =>
    intro saved members k v f hmem hkv hf hnull hval
    rcases List.mem_cons.1 hmem with heq | hrest
    · subst heq
      have hbad : (value (.object members) JailAttributes.zero saved).2 ≠ none :=
        object_untyped members _ saved k v f hkv hf hnull hval
      cases hv : (value (.object members) JailAttributes.zero saved).2 with
      | none => exact absurd hv hbad
      | some err => simp only [array, hv, array_saved]; simp
    · simp only [array]
      exact ih _ members k v f hrest hkv hf hnull hval

/-- Text that is not JSON: `Unmarshal` fails and decodes nothing. -/
theorem Unmarshal_invalid (scan : GoString → Except GoError JSON) (data : GoString)
    (e : GoError) (h : scan data = .error e) : Unmarshal scan data = ([], some e) := by
  simp only [Unmarshal, h]

/-- A JSON value that is neither an array nor `null`: `Unmarshal` fails. -/
theorem Unmarshal_not_array (scan : GoString → Except GoError JSON) (data : GoString)
    (v : JSON) (h : scan data = .ok v) (harr : ∀ elems, v ≠ .array elems) (hnull : v ≠ .null) :
    Unmarshal scan data = ([], some (.UnmarshalTypeError (kind v) (str "[]main.JailAttributes"))) := by
  cases v with
  | null => exact absurd rfl hnull
  | array l => exact absurd rfl (harr l)
  | bool b => simp only [Unmarshal, h]
  | number n => simp only [Unmarshal, h]
  | string s => simp only [Unmarshal, h]
  | object m => simp only [Unmarshal, h]

/-- The JSON value `null`: `Unmarshal` leaves the slice nil and succeeds. -/
theorem Unmarshal_null (scan : GoString → Except GoError JSON) (data : GoString)
    (h : scan data = .ok .null) : Unmarshal scan data = ([], none) := by
  simp only [Unmarshal, h]

/-- An array with an object in which a key that addresses a field holds a
value, other than `null`, that is not of the field's type: `Unmarshal`
fails. -/
theorem Unmarshal_wrong_type (scan : GoString → Except GoError JSON) (data : GoString)
    (elems : List JSON) (members : List (GoString × JSON)) (k : GoString) (v : JSON)
    (f : Field) (h : scan data = .ok (.array elems)) (hmem : JSON.object members ∈ elems)
    (hkv : (k, v) ∈ members) (hf : findField k = some f) (hnull : v ≠ .null)
    (hval : goValue f v = none) : (Unmarshal scan data).2 ≠ none := by
  simp only [Unmarshal, h]
  exact array_untyped elems none members k v f hmem hkv hf hnull hval

theorem store_fits (f : Field) (v : JSON) (j : JailAttributes) (h : fits f v = true) :
    (store f v j).2 = none := by
  cases v with
  | null => rfl
  | bool b => exact (store_typed f _ j _ (Option.get_mem h)).1
  | number n => exact (store_typed f _ j _ (Option.get_mem h)).1
  | string s => exact (store_typed f _ j _ (Option.get_mem h)).1
  | array l => exact (store_typed f _ j _ (Option.get_mem h)).1
  | object m => exact (store_typed f _ j _ (Option.get_mem h)).1

theorem store_unfit (f : Field) (v : JSON) (j : JailAttributes) (h : fits f v = false) :
    (store f v j).2 ≠ none := by
  cases v with
  | null => simp [fits] at h
  | bool b => exact store_untyped f _ j (by simp) (by simpa [fits] using h)
  | number n => exact store_untyped f _ j (by simp) (by simpa [fits] using h)
  | string s => exact store_untyped f _ j (by simp) (by simpa [fits] using h)
  | array l => exact store_untyped f _ j (by simp) (by simpa [fits] using h)
  | object m => exact store_untyped f _ j (by simp) (by simpa [fits] using h)

theorem object_clean (members : List (GoString × JSON)) :
    ∀ (j : JailAttributes) (saved : Option GoError),
      elementDecodes (.object members) = true → (object members j saved).2 = saved := by
  induction members with
  | nil => intro j saved _; rfl
  | cons kv rest ih =>
    obtain ⟨k, v⟩ := kv
    intro j saved h
    simp only [elementDecodes, List.all_cons, Bool.and_eq_true] at h
    cases hf : findField k with
    | none => simp only [object, hf]; exact ih j saved h.2
    | some f =>
      have hfit : fits f v = true := by simpa [hf] using h.1
      simp only [object, hf, store_fits f v j hfit, saveError_none]
      exact ih _ saved h.2

theorem object_dirty (members : List (GoString × JSON)) :
    ∀ (j : JailAttributes) (saved : Option GoError),
      elementDecodes (.object members) = false → (object members j saved).2 ≠ none := by
  induction members with
  | nil => intro j saved h; simp [elementDecodes] at h
  | cons kv rest ih =>
    obtain ⟨k, v⟩ := kv
    intro j saved h
    cases hf : findField k with
    | none =>
      have hrest : elementDecodes (.object rest) = false := by
        simpa [elementDecodes, hf] using h
      simp only [object, hf]
      exact ih j saved hrest
    | some f =>
      cases hfit : fits f v with
      | true =>
        have hrest : elementDecodes (.object rest) = false := by
          simpa [elementDecodes, hf, hfit] using h
        simp only [object, hf]
        exact ih _ _ hrest
      | false =>
        simp only [object, hf]
        cases hs : saveError saved (store f v j).2 with
        | some e => rw [object_saved]; simp
        | none =>
          exfalso
          have hbad := store_unfit f v j hfit
          cases saved <;> simp [saveError] at hs
          exact hbad hs

theorem value_clean (v : JSON) (j : JailAttributes) (saved : Option GoError)
    (h : elementDecodes v = true) : (value v j saved).2 = saved := by
  cases v with
  | null => rfl
  | object m => exact object_clean m j saved h
  | bool b => simp [elementDecodes] at h
  | number n => simp [elementDecodes] at h
  | string s => simp [elementDecodes] at h
  | array l => simp [elementDecodes] at h

theorem value_dirty (v : JSON) (j : JailAttributes) (saved : Option GoError)
    (h : elementDecodes v = false) : (value v j saved).2 ≠ none := by
  cases v with
  | null => simp [elementDecodes] at h
  | object m => exact object_dirty m j saved h
  | bool b => cases saved <;> simp [value, saveError]
  | number n => cases saved <;> simp [value, saveError]
  | string s => cases saved <;> simp [value, saveError]
  | array l => cases saved <;> simp [value, saveError]

theorem array_clean (elems : List JSON) :
    ∀ saved : Option GoError, elems.all elementDecodes = true →
      (array elems saved).2 = saved := by
  induction elems with
  | nil => intro saved _; rfl
  | cons v rest ih =>
    intro saved h
    simp only [List.all_cons, Bool.and_eq_true] at h
    simp only [array, value_clean v _ saved h.1]
    exact ih saved h.2

theorem array_dirty (elems : List JSON) :
    ∀ saved : Option GoError, elems.all elementDecodes = false →
      (array elems saved).2 ≠ none := by
  induction elems with
  | nil => intro saved h; simp at h
  | cons v rest ih =>
    intro saved h
    cases hv : elementDecodes v with
    | true =>
      have hrest : rest.all elementDecodes = false := by simpa [hv] using h
      simp only [array]
      exact ih _ hrest
    | false =>
      have hbad := value_dirty v JailAttributes.zero saved hv
      cases hs : (value v JailAttributes.zero saved).2 with
      | none => exact absurd hs hbad
      | some e => simp only [array, hs, array_saved]; simp

/-- What `Unmarshal` accepts, exactly: text the scanner reads as `null` or as
an array whose elements are `null` or objects in which every key that addresses
a field holds `null` or a value of the field's type.  Every other body is an
error. -/
theorem Unmarshal_ok_iff (scan : GoString → Except GoError JSON) (data : GoString) :
    (Unmarshal scan data).2 = none ↔ ∃ v, scan data = .ok v ∧ decodes v = true := by
  cases hs : scan data with
  | error e => simp [Unmarshal, hs]
  | ok v =>
    cases v with
    | null => simp [Unmarshal, hs, decodes]
    | bool b => simp [Unmarshal, hs, decodes]
    | number n => simp [Unmarshal, hs, decodes]
    | string s => simp [Unmarshal, hs, decodes]
    | object m => simp [Unmarshal, hs, decodes]
    | array elems =>
      simp only [Unmarshal, hs, Except.ok.injEq, exists_eq_left', decodes]
      cases hall : elems.all elementDecodes with
      | true => simp [array_clean elems none hall]
      | false => simpa using array_dirty elems none hall

theorem findField_name (g : Field) : findField g.name = some g := by
  cases g <;> decide

theorem store_keeps (f : Field) (v : JSON) (j : JailAttributes) (h : goValue f v = none) :
    (store f v j).1 = j := by
  cases v with
  | null => rfl
  | bool b => rfl
  | array l => rfl
  | object m => rfl
  | string s => cases f <;> simp [goValue] at h; rfl
  | number n =>
    cases f
    · simp [goValue] at h
      simp [store, storeNumber, h]
    all_goals rfl

/-- What storing one member does to the content of a field. -/
theorem store_get (f g : Field) (v : JSON) (j : JailAttributes) :
    g.get (store f v j).1 =
      (if some f = some g then goValue g v else none).getD (g.get j) := by
  by_cases hfg : f = g
  · subst hfg
    cases hv : goValue f v with
    | none => simp [store_keeps f v j hv]
    | some x => simp [(store_typed f v j x hv).2.1]
  · have hne : ¬ (some f = some g) := fun h => hfg (Option.some.inj h)
    simp only [hne, if_false, Option.getD_none]
    cases hv : goValue f v with
    | none => rw [store_keeps f v j hv]
    | some x => exact (store_typed f v j x hv).2.2 g (fun h => hfg h.symm)

/-- The content of field `g` after an object is decoded into `j`: the last
value of the field's type under a key that addresses it, and what `j` held
when there is none. -/
theorem object_get (members : List (GoString × JSON)) (g : Field) :
    ∀ (j : JailAttributes) (saved : Option GoError),
      g.get (object members j saved).1 =
        (lastUnder g.name (goValue g) members).getD (g.get j) := by
  induction members with
  | nil => intro j saved; rfl
  | cons kv rest ih =>
    obtain ⟨k, v⟩ := kv
    intro j saved
    cases hf : findField k with
    | none =>
      simp only [object, hf, lastUnder, findField_name]
      rw [ih j saved]
      cases lastUnder g.name (goValue g) rest <;> simp
    | some f =>
      simp only [object, hf, lastUnder, findField_name]
      rw [ih]
      cases lastUnder g.name (goValue g) rest with
      | some x => simp
      | none => simp only [Option.getD_none]; exact store_get f g v j

theorem lastUnder_map {α β : Type} (tag : GoString) (pick : JSON → Option α) (h : α → β)
    (members : List (GoString × JSON)) :
    lastUnder tag (fun v => (pick v).map h) members = (lastUnder tag pick members).map h := by
  induction members with
  | nil => rfl
  | cons kv rest ih =>
    obtain ⟨k, v⟩ := kv
    simp only [lastUnder, ih]
    cases lastUnder tag pick rest with
    | some x => rfl
    | none => by_cases hk : findField k = findField tag <;> simp [hk]

theorem goValue_Id : goValue .Id = fun v => (asInt v).map Sum.inl := by
  funext v; cases v <;> rfl

theorem goValue_text (g : Field) (h : g ≠ .Id) :
    goValue g = fun v => (asText v).map Sum.inr := by
  funext v; cases g <;> first | exact absurd rfl h | (cases v <;> rfl)

theorem recordOf_get (v : JSON) (g : Field) :
    g.get (recordOf v) =
      (lastUnder g.name (goValue g) (members v)).getD (g.get JailAttributes.zero) := by
  cases g
  · rw [goValue_Id, lastUnder_map]
    simp only [Field.get, recordOf, intUnder, Field.name, JailAttributes.zero]
    cases lastUnder (str "jid") asInt (members v) <;> rfl
  all_goals
    rw [goValue_text _ (by simp), lastUnder_map]
    simp only [Field.get, recordOf, textUnder, Field.name, JailAttributes.zero]
    cases lastUnder _ asText (members v) <;> rfl

/-- An element `Unmarshal` accepts decodes, into a zero-valued record, to the
record it spells, without an error. -/
theorem value_decodes (v : JSON) (saved : Option GoError) (h : elementDecodes v = true) :
    value v JailAttributes.zero saved = (recordOf v, saved) := by
  refine Prod.ext ?_ (value_clean v _ saved h)
  apply Field.get_ext
  intro g
  rw [recordOf_get]
  cases v with
  | object ms => exact object_get ms g _ saved
  | null => rfl
  | bool b => simp [elementDecodes] at h
  | number n => simp [elementDecodes] at h
  | string s => simp [elementDecodes] at h
  | array l => simp [elementDecodes] at h

theorem array_decodes (elems : List JSON) (saved : Option GoError)
    (h : elems.all elementDecodes = true) :
    array elems saved = (elems.map recordOf, saved) := by
  induction elems with
  | nil => rfl
  | cons v rest ih =>
    simp only [List.all_cons, Bool.and_eq_true] at h
    simp only [array, value_decodes v saved h.1, ih h.2, List.map_cons]

theorem Unmarshal_decodes (scan : GoString → Except GoError JSON) (data : GoString)
    (elems : List JSON) (hscan : scan data = .ok (.array elems))
    (h : elems.all elementDecodes = true) :
    Unmarshal scan data = (elems.map recordOf, none) := by
  simp only [Unmarshal, hscan]
  exact array_decodes elems none h

theorem lastUnder_absent {α : Type} (g : Field) (pick : JSON → Option α)
    (members : List (GoString × JSON))
    (h : ∀ kv ∈ members, findField kv.1 ≠ some g) :
    lastUnder g.name pick members = none := by
  induction members with
  | nil => rfl
  | cons kv rest ih =>
    obtain ⟨k, v⟩ := kv
    have hk : findField k ≠ some g := h (k, v) (List.mem_cons_self _ _)
    simp only [lastUnder, ih (fun kv hkv => h kv (List.mem_cons_of_mem _ hkv)),
      findField_name, hk, if_false]

/-- Where the keys of an object are distinct and every key that addresses a
field is the field's tag letter for letter, the last value under a key that
addresses the tag is the value under the tag itself. -/
theorem lastUnder_plain {α : Type} (g : Field) (pick : JSON → Option α)
    (members : List (GoString × JSON)) (hnd : (members.map Prod.fst).Nodup)
    (hplain : ∀ kv ∈ members, ∀ f, findField kv.1 = some f → kv.1 = f.name) :
    lastUnder g.name pick members = (members.lookup g.name).bind pick := by
  induction members with
  | nil => rfl
  | cons kv rest ih =>
    obtain ⟨k, v⟩ := kv
    simp only [List.map_cons, List.nodup_cons] at hnd
    have hrest : ∀ kv ∈ rest, ∀ f, findField kv.1 = some f → kv.1 = f.name :=
      fun kv hkv => hplain kv (List.mem_cons_of_mem _ hkv)
    by_cases hk : k = g.name
    · subst hk
      have habsent : lastUnder g.name pick rest = none := by
        apply lastUnder_absent
        intro kv hkv hf
        exact hnd.1 (by rw [← hrest kv hkv g hf]; exact List.mem_map_of_mem _ hkv)
      simp [lastUnder, habsent, List.lookup_cons]
    · have hf : findField k ≠ some g := fun hf => hk (hplain (k, v) (List.mem_cons_self _ _) g hf)
      have hb : (g.name == k) = false := by simpa using fun h : g.name = k => hk h.symm
      simp only [lastUnder, ih hnd.2 hrest, findField_name, hf, if_false, List.lookup_cons, hb]
      cases (List.lookup g.name rest).bind pick <;> rfl

end json

/-! ## Lemmas: `getJails` and `showJails`, stage by stage -/

theorem newRequest_get (env : Env) (u : URL) (h : env.urlParse env.config.APIURL = .ok u) :
    http.NewRequest env.urlParse (str "GET") env.config.APIURL none =
      .ok { Method := str "GET", URL := { u with Host := http.removeEmptyPort u.Host },
            Header := [], Body := none, Host := http.removeEmptyPort u.Host } := by
  have h1 : (str "GET").isEmpty = false := by decide
  have h2 : http.validMethod (str "GET") = true := by decide
  simp [http.NewRequest, h1, h2, h]

theorem newRequest_fail (env : Env) (e : GoError)
    (h : env.urlParse env.config.APIURL = .error e) :
    http.NewRequest env.urlParse (str "GET") env.config.APIURL none = .error e := by
  have h1 : (str "GET").isEmpty = false := by decide
  have h2 : http.validMethod (str "GET") = true := by decide
  simp [http.NewRequest, h1, h2, h]

theorem header_add_empty (key value : GoString) :
    Header.Add [] key value = [(key, [value])] := by
  simp [Header.Add, Header.put, Header.Values]

/-- Failure while the request is built. -/
theorem getJails_url_error (env : Env) (e : GoError)
    (h : env.urlParse env.config.APIURL = .error e) :
    getJails env = { events := [], jails := [], err := some e } := by
  simp only [getJails, newRequest_fail env e h]

/-- Failure while the request is sent. -/
theorem getJails_do_error (env : Env) (u : URL) (e : GoError)
    (h : env.urlParse env.config.APIURL = .ok u)
    (hdo : env.Do (bearerRequest env.config u) = .error e) :
    getJails env =
      { events := [.Do (bearerRequest env.config u)], jails := [], err := some e } := by
  simp only [getJails, newRequest_get env u h, header_add_empty]
  simp only [bearerRequest] at hdo
  simp only [hdo, bearerRequest]

/-- Failure while the body is read. -/
theorem getJails_read_error (env : Env) (u : URL) (e : GoError) (response : Response)
    (h : env.urlParse env.config.APIURL = .ok u)
    (hdo : env.Do (bearerRequest env.config u) = .ok response)
    (hread : response.Body.err = some e) :
    getJails env =
      { events := [.Do (bearerRequest env.config u), .Close], jails := [], err := some e } := by
  simp only [getJails, newRequest_get env u h, header_add_empty]
  simp only [bearerRequest] at hdo
  simp only [hdo, bearerRequest, ReadAll, hread]

/-- Failure while the JSON is decoded. -/
theorem getJails_decode_error (env : Env) (u : URL) (e : GoError) (response : Response)
    (decoded : List JailAttributes)
    (h : env.urlParse env.config.APIURL = .ok u)
    (hdo : env.Do (bearerRequest env.config u) = .ok response)
    (hread : response.Body.err = none)
    (hdec : json.Unmarshal env.scan response.Body.data = (decoded, some e)) :
    getJails env =
      { events := [.Do (bearerRequest env.config u), .Close], jails := [], err := some e } := by
  simp only [getJails, newRequest_get env u h, header_add_empty]
  simp only [bearerRequest] at hdo
  simp only [hdo, bearerRequest, ReadAll, hread, hdec]

/-- Success. -/
theorem getJails_ok (env : Env) (u : URL) (response : Response)
    (decoded : List JailAttributes)
    (h : env.urlParse env.config.APIURL = .ok u)
    (hdo : env.Do (bearerRequest env.config u) = .ok response)
    (hread : response.Body.err = none)
    (hdec : json.Unmarshal env.scan response.Body.data = (decoded, none)) :
    getJails env =
      { events := [.Do (bearerRequest env.config u), .Close], jails := decoded.map trimmed,
        err := none } := by
  simp only [getJails, newRequest_get env u h, header_add_empty]
  simp only [bearerRequest] at hdo
  simp only [hdo, bearerRequest, ReadAll, hread, hdec, trimLoop_map]

theorem getJails_cases (env : Env) :
    (∃ e, env.urlParse env.config.APIURL = .error e ∧
      getJails env = { events := [], jails := [], err := some e }) ∨
    (∃ u, env.urlParse env.config.APIURL = .ok u ∧
      ((∃ e, getJails env =
          { events := [.Do (bearerRequest env.config u)], jails := [], err := some e }) ∨
       (∃ e, getJails env =
          { events := [.Do (bearerRequest env.config u), .Close], jails := [],
            err := some e }) ∨
       (∃ response decoded, env.Do (bearerRequest env.config u) = .ok response ∧
          response.Body.err = none ∧
          json.Unmarshal env.scan response.Body.data = (decoded, none) ∧
          getJails env =
            { events := [.Do (bearerRequest env.config u), .Close],
              jails := decoded.map trimmed, err := none }))) := by
  cases hu : env.urlParse env.config.APIURL with
  | error e => exact Or.inl ⟨e, rfl, getJails_url_error env e hu⟩
  | ok u =>
    refine Or.inr ⟨u, rfl, ?_⟩
    cases hdo : env.Do (bearerRequest env.config u) with
    | error e => exact Or.inl ⟨e, getJails_do_error env u e hu hdo⟩
    | ok response =>
      refine Or.inr ?_
      cases hread : response.Body.err with
      | some e => exact Or.inl ⟨e, getJails_read_error env u e response hu hdo hread⟩
      | none =>
        cases hdec : json.Unmarshal env.scan response.Body.data with
        | mk decoded err =>
          cases err with
          | some e =>
            exact Or.inl ⟨e, getJails_decode_error env u e response decoded hu hdo hread hdec⟩
          | none =>
            exact Or.inr ⟨response, decoded, rfl, hread, hdec,
              getJails_ok env u response decoded hu hdo hread hdec⟩

theorem getJails_err_jails (env : Env) (h : (getJails env).err ≠ none) :
    (getJails env).jails = [] := by
  rcases getJails_cases env with ⟨e, _, hg⟩ | ⟨u, _, ⟨e, hg⟩ | ⟨e, hg⟩ | ⟨_, _, _, _, _, hg⟩⟩
  · rw [hg]
  · rw [hg]
  · rw [hg]
  · rw [hg] at h; exact absurd rfl h

theorem getJails_err_rendered (env : Env) : rendered (getJails env).events = [] := by
  rcases getJails_cases env with ⟨e, _, hg⟩ | ⟨u, _, ⟨e, hg⟩ | ⟨e, hg⟩ | ⟨_, _, _, _, _, hg⟩⟩ <;>
    rw [hg] <;> rfl

theorem getJails_calls (env : Env) (u : URL) (h : env.urlParse env.config.APIURL = .ok u) :
    calls (getJails env).events = [bearerRequest env.config u] := by
  rcases getJails_cases env with ⟨e, he, _⟩ | ⟨u1, hu1, hrest⟩
  · rw [h] at he; exact absurd he (by simp)
  · rw [h] at hu1
    obtain rfl : u = u1 := Except.ok.inj hu1
    rcases hrest with ⟨e, hg⟩ | ⟨e, hg⟩ | ⟨_, _, _, _, _, hg⟩ <;> rw [hg] <;> rfl

theorem calls_append_execute (events : List Event) (jails : List JailAttributes) :
    calls (events ++ [.Execute jails]) = calls events := by
  induction events with
  | nil => rfl
  | cons ev rest ih => cases ev <;> simp [calls, ih]

theorem wire_eq_calls (env : Env) (events : List Event) :
    wire env events = ((calls events).map env.sent).flatten := by
  induction events with
  | nil => rfl
  | cons ev rest ih => cases ev <;> simp [wire, calls, ih]

theorem rendered_append_execute (events : List Event) (jails : List JailAttributes) :
    rendered (events ++ [.Execute jails]) = rendered events ++ [jails] := by
  induction events with
  | nil => rfl
  | cons ev rest ih => cases ev <;> simp [rendered, ih]

theorem showJails_of_err (env : Env) (wr : http.ResponseWriter) (r : Request)
    (h : (getJails env).err ≠ none) :
    showJails env wr r =
      { events := (getJails env).events,
        response := http.Error wr (str "Failed to retrieve jails") 500 } := by
  cases he : (getJails env).err with
  | none => exact absurd he h
  | some e => simp only [showJails, he, http.StatusInternalServerError]

theorem showJails_ok_events (env : Env) (wr : http.ResponseWriter) (r : Request)
    (h : (getJails env).err = none) :
    (showJails env wr r).events = (getJails env).events ++ [.Execute (getJails env).jails] := by
  simp only [showJails, h]

theorem showJails_ok_page (env : Env) (wr wr1 : http.ResponseWriter) (r : Request)
    (h : (getJails env).err = none)
    (hx : template.Execute env.tmpl wr (getJails env).jails = .ok (wr1, none)) :
    (showJails env wr r).response = .ok wr1 := by
  simp only [showJails, h, hx]

theorem showJails_ok_broken (env : Env) (wr wr1 : http.ResponseWriter) (r : Request)
    (e : GoError) (h : (getJails env).err = none)
    (hx : template.Execute env.tmpl wr (getJails env).jails = .ok (wr1, some e)) :
    (showJails env wr r).response = http.Error wr1 (str "Failed to render template") 500 := by
  simp only [showJails, h, hx, http.StatusInternalServerError]

theorem http.Error_unwritten (w : http.ResponseWriter) (msg : GoString)
    (h : w.wroteHeader = false) :
    http.Error w msg 500 =
      .ok { handlerHeader := errorHeader w.handlerHeader, wroteHeader := true, status := 500,
            header := errorHeader w.handlerHeader, body := w.body ++ (msg ++ str "\n") } := by
  simp [http.Error, http.ResponseWriter.WriteHeader, http.ResponseWriter.Write, h, errorHeader]

theorem http.Error_written (w : http.ResponseWriter) (msg : GoString)
    (h : w.wroteHeader = true) :
    http.Error w msg 500 =
      .ok { w with handlerHeader := errorHeader w.handlerHeader,
                   body := w.body ++ (msg ++ str "\n") } := by
  simp [http.Error, http.ResponseWriter.WriteHeader, http.ResponseWriter.Write, h, errorHeader]

theorem http.Write_written (w : http.ResponseWriter) (data : GoString)
    (h : w.wroteHeader = true) :
    w.Write data = .ok { w with body := w.body ++ data } := by
  simp [http.ResponseWriter.Write, h]

theorem http.Write_unwritten (w : http.ResponseWriter) (data : GoString)
    (h : w.wroteHeader = false) :
    w.Write data =
      .ok { w with wroteHeader := true, status := 200, header := w.handlerHeader,
                   body := w.body ++ data } := by
  simp [http.ResponseWriter.Write, http.ResponseWriter.WriteHeader, h, http.StatusOK]

theorem template.writeAll_written (chunks : List GoString) :
    ∀ w : http.ResponseWriter, w.wroteHeader = true →
      template.writeAll w chunks = .ok { w with body := w.body ++ chunks.flatten } := by
  induction chunks with
  | nil => intro w _; simp [template.writeAll]
  | cons c rest ih =>
    intro w h
    simp only [template.writeAll, http.Write_written w c h]
    rw [ih { w with body := w.body ++ c } h]
    simp

theorem template.writeAll_unwritten (c : GoString) (rest : List GoString)
    (w : http.ResponseWriter) (h : w.wroteHeader = false) :
    template.writeAll w (c :: rest) =
      .ok { w with wroteHeader := true, status := 200, header := w.handlerHeader,
                   body := w.body ++ (c :: rest).flatten } := by
  simp only [template.writeAll, http.Write_unwritten w c h]
  rw [template.writeAll_written rest _ rfl]
  simp

theorem showJails_calls (env : Env) (wr : http.ResponseWriter) (r : Request) :
    calls (showJails env wr r).events = calls (getJails env).events := by
  cases he : (getJails env).err with
  | none => rw [showJails_ok_events env wr r he, calls_append_execute]
  | some e => rw [showJails_of_err env wr r (by rw [he]; simp)]

theorem getJails_answered (env : Env) (code : Nat) (body : GoString)
    (decoded : List JailAttributes) (h : Answers env code body)
    (hdec : json.Unmarshal env.scan body = (decoded, none)) :
    ∃ u, getJails env =
      { events := [.Do (bearerRequest env.config u), .Close], jails := decoded.map trimmed,
        err := none } := by
  obtain ⟨u, hu, hdo⟩ := h
  exact ⟨u, getJails_ok env u _ decoded hu hdo rfl hdec⟩

theorem getJails_answered_err (env : Env) (code : Nat) (body : GoString)
    (decoded : List JailAttributes) (e : GoError) (h : Answers env code body)
    (hdec : json.Unmarshal env.scan body = (decoded, some e)) :
    ∃ u, getJails env =
      { events := [.Do (bearerRequest env.config u), .Close], jails := [], err := some e } := by
  obtain ⟨u, hu, hdo⟩ := h
  exact ⟨u, getJails_decode_error env u e _ decoded hu hdo rfl hdec⟩

theorem getJails_congr (env1 env2 : Env) (hc : env1.config = env2.config)
    (hu : env1.urlParse = env2.urlParse) (hs : env1.scan = env2.scan)
    (hd : ∀ request : Request,
      Except.map Response.Body (env1.Do request) = Except.map Response.Body (env2.Do request)) :
    getJails env1 = getJails env2 := by
  simp only [getJails, hc, hu, hs]
  cases hreq : http.NewRequest env2.urlParse (str "GET") env2.config.APIURL none with
  | error e => rfl
  | ok request =>
    simp only []
    have hd1 := hd { request with
      Header := request.Header.Add (str "Authorization") (str "Bearer " ++ env2.config.APIKey) }
    cases h1 : env1.Do { request with
        Header := request.Header.Add (str "Authorization")
          (str "Bearer " ++ env2.config.APIKey) } with
    | error e1 =>
      cases h2 : env2.Do { request with
          Header := request.Header.Add (str "Authorization")
            (str "Bearer " ++ env2.config.APIKey) } with
      | error e2 =>
        rw [h1, h2] at hd1
        simp only [Except.map, Except.error.injEq] at hd1
        simp only [hd1]
      | ok r2 => rw [h1, h2] at hd1; simp [Except.map] at hd1
    | ok r1 =>
      cases h2 : env2.Do { request with
          Header := request.Header.Add (str "Authorization")
            (str "Bearer " ++ env2.config.APIKey) } with
      | error e2 => rw [h1, h2] at hd1; simp [Except.map] at hd1
      | ok r2 =>
        rw [h1, h2] at hd1
        simp only [Except.map, Except.ok.injEq] at hd1
        simp only [hd1]

/-- The four stages at which `getJails` can fail: building the request,
sending it, reading the body, decoding the JSON. -/
theorem getJails_err_stage (env : Env) :
    (getJails env).err ≠ none ↔
      (∃ e, env.urlParse env.config.APIURL = .error e) ∨
      (∃ u, env.urlParse env.config.APIURL = .ok u ∧
        ((∃ e, env.Do (bearerRequest env.config u) = .error e) ∨
         (∃ response, env.Do (bearerRequest env.config u) = .ok response ∧
           response.Body.err ≠ none) ∨
         (∃ response, env.Do (bearerRequest env.config u) = .ok response ∧
           (json.Unmarshal env.scan response.Body.data).2 ≠ none))) := by
  cases hu : env.urlParse env.config.APIURL with
  | error e => simp [getJails_url_error env e hu]
  | ok u =>
    cases hdo : env.Do (bearerRequest env.config u) with
    | error e => simp [getJails_do_error env u e hu hdo, hdo]
    | ok response =>
      cases hread : response.Body.err with
      | some e => simp [getJails_read_error env u e response hu hdo hread, hread, hdo]
      | none =>
        cases hdec : json.Unmarshal env.scan response.Body.data with
        | mk decoded err =>
          cases err with
          | some e =>
            simp [getJails_decode_error env u e response decoded hu hdo hread hdec, hdec, hdo]
          | none =>
            simp [getJails_ok env u response decoded hu hdo hread hdec, hread, hdec, hdo]


/-! ## The claims -/

set_option maxRecDepth 100000

theorem str_marker : str "vnet0|" = marker := rfl

/-- C1: when the upstream answers and the body decodes, every record whose
upstream `ip4_addr` value begins with `vnet0|` comes back from `getJails` at
the same index with an `Address` such that upstream = `vnet0|` ++ Address; one
leading marker only is removed, so `vnet0|vnet0|x` becomes `vnet0|x`. -/
theorem getJails_strips_marker (env : Env) (code : Nat) (body : GoString)
    (decoded : List JailAttributes) (h : Answers env code body)
    (hdec : json.Unmarshal env.scan body = (decoded, none)) :
    (getJails env).err = none ∧ (getJails env).jails.length = decoded.length ∧
      (∀ (i : Nat) (up : JailAttributes), decoded[i]? = some up →
        str "vnet0|" <+: up.Address →
        ∃ jail, (getJails env).jails[i]? = some jail ∧
          up.Address = str "vnet0|" ++ jail.Address) ∧
      (∀ (i : Nat) (up : JailAttributes), decoded[i]? = some up →
        up.Address = str "vnet0|vnet0|x" →
        ∃ jail, (getJails env).jails[i]? = some jail ∧ jail.Address = str "vnet0|x") := by
  obtain ⟨u, hg⟩ := getJails_answered env code body decoded h hdec
  rw [hg]
  refine ⟨rfl, by simp, ?_, ?_⟩
  · rintro i up hi ⟨t, ht⟩
    refine ⟨trimmed up, by simp [hi], ?_⟩
    rw [str_marker] at ht ⊢
    simp only [trimmed, ← ht, strings.TrimPrefix_append]
  · intro i up hi hup
    refine ⟨trimmed up, by simp [hi], ?_⟩
    simp only [trimmed, hup]
    decide

theorem getJails_strips_marker_witness :
    Answers rollEnv 200 rollBody ∧ json.Unmarshal rollEnv.scan rollBody = (rollDecoded, none) ∧
      ((getJails rollEnv).err = none ∧ (getJails rollEnv).jails.length = rollDecoded.length ∧
      (∀ (i : Nat) (up : JailAttributes), rollDecoded[i]? = some up →
        str "vnet0|" <+: up.Address →
        ∃ jail, (getJails rollEnv).jails[i]? = some jail ∧
          up.Address = str "vnet0|" ++ jail.Address) ∧
      (∀ (i : Nat) (up : JailAttributes), rollDecoded[i]? = some up →
        up.Address = str "vnet0|vnet0|x" →
        ∃ jail, (getJails rollEnv).jails[i]? = some jail ∧ jail.Address = str "vnet0|x")) :=
  ⟨⟨demoURL, rfl, rfl⟩, by decide,
    getJails_strips_marker rollEnv 200 rollBody rollDecoded ⟨demoURL, rfl, rfl⟩ (by decide)⟩

/-- C7: when the upstream answers and the body decodes, every record whose
upstream `ip4_addr` value does not begin with `vnet0|` comes back from
`getJails` at the same index with that value unchanged; the empty string,
`vnet0` and `vnet1|a,vnet0|b` are such values. -/
theorem getJails_keeps_unmarked (env : Env) (code : Nat) (body : GoString)
    (decoded : List JailAttributes) (h : Answers env code body)
    (hdec : json.Unmarshal env.scan body = (decoded, none)) :
    (∀ (i : Nat) (up : JailAttributes), decoded[i]? = some up →
        ¬ str "vnet0|" <+: up.Address →
        ∃ jail, (getJails env).jails[i]? = some jail ∧ jail.Address = up.Address) ∧
      ¬ str "vnet0|" <+: str "" ∧ ¬ str "vnet0|" <+: str "vnet0" ∧
      ¬ str "vnet0|" <+: str "vnet1|a,vnet0|b" := by
  obtain ⟨u, hg⟩ := getJails_answered env code body decoded h hdec
  rw [hg]
  refine ⟨?_, ?_, ?_, ?_⟩
  · intro i up hi hno
    refine ⟨trimmed up, by simp [hi], ?_⟩
    rw [str_marker] at hno
    simp only [trimmed, strings.TrimPrefix_of_not _ _ hno]
  · rw [← strings.HasPrefix_iff]; decide
  · rw [← strings.HasPrefix_iff]; decide
  · rw [← strings.HasPrefix_iff]; decide

theorem getJails_keeps_unmarked_witness :
    Answers rollEnv 200 rollBody ∧ json.Unmarshal rollEnv.scan rollBody = (rollDecoded, none) ∧
      ((∀ (i : Nat) (up : JailAttributes), rollDecoded[i]? = some up →
        ¬ str "vnet0|" <+: up.Address →
        ∃ jail, (getJails rollEnv).jails[i]? = some jail ∧ jail.Address = up.Address) ∧
      ¬ str "vnet0|" <+: str "" ∧ ¬ str "vnet0|" <+: str "vnet0" ∧
      ¬ str "vnet0|" <+: str "vnet1|a,vnet0|b") :=
  ⟨⟨demoURL, rfl, rfl⟩, by decide,
    getJails_keeps_unmarked rollEnv 200 rollBody rollDecoded ⟨demoURL, rfl, rfl⟩ (by decide)⟩

/-- C3: whatever makes `getJails` fail, in whichever of two runs, the browser
gets the same response: it is `http.Error(wr, "Failed to retrieve jails", 500)`,
an expression in which neither the error nor the configuration occurs; on an
unwritten response that is status 500, two fixed plain-text headers, and the
line `Failed to retrieve jails`. -/
theorem showJails_failure_uniform (env1 env2 : Env) (wr : http.ResponseWriter)
    (r1 r2 : Request) (h1 : (getJails env1).err ≠ none) (h2 : (getJails env2).err ≠ none) :
    (showJails env1 wr r1).response = (showJails env2 wr r2).response ∧
      (showJails env1 wr r1).response = http.Error wr (str "Failed to retrieve jails") 500 ∧
      (showJails env1 http.ResponseWriter.fresh r1).response =
        .ok { handlerHeader :=
                [(str "Content-Type", [str "text/plain; charset=utf-8"]),
                 (str "X-Content-Type-Options", [str "nosniff"])],
              wroteHeader := true, status := 500,
              header :=
                [(str "Content-Type", [str "text/plain; charset=utf-8"]),
                 (str "X-Content-Type-Options", [str "nosniff"])],
              body := str "Failed to retrieve jails\n" } := by
  rw [showJails_of_err env1 wr r1 h1, showJails_of_err env2 wr r2 h2,
    showJails_of_err env1 _ r1 h1]
  exact ⟨rfl, rfl, rfl⟩

theorem showJails_failure_uniform_witness :
    (getJails urlEnv).err ≠ none ∧ (getJails brokenEnv).err ≠ none ∧
      (getJails urlEnv).err ≠ (getJails brokenEnv).err ∧
      (showJails urlEnv http.ResponseWriter.fresh demoRequest).response =
        (showJails brokenEnv http.ResponseWriter.fresh demoRequest).response :=
  ⟨by decide, by decide, by decide,
    (showJails_failure_uniform urlEnv brokenEnv http.ResponseWriter.fresh
      demoRequest demoRequest (by decide) (by decide)).1⟩

/-- C4: whenever `getJails` returns an error it returns no records, also when
`json.Unmarshal` had filled part of the slice before it failed; `showJails`
then does not execute the template and writes only the error response. -/
theorem getJails_failure_returns_nil (env : Env) (wr : http.ResponseWriter) (r : Request)
    (h : (getJails env).err ≠ none) :
    (getJails env).jails = [] ∧ rendered (showJails env wr r).events = [] ∧
      (showJails env wr r).response = http.Error wr (str "Failed to retrieve jails") 500 := by
  refine ⟨getJails_err_jails env h, ?_, ?_⟩
  · rw [showJails_of_err env wr r h]; exact getJails_err_rendered env
  · rw [showJails_of_err env wr r h]

theorem getJails_failure_returns_nil_witness :
    (getJails brokenEnv).err ≠ none ∧
      (json.Unmarshal brokenEnv.scan brokenBody).1 =
        [{ JailAttributes.zero with Id := 1, Name := str "web" }, JailAttributes.zero] ∧
      (getJails brokenEnv).jails = [] ∧
      rendered (showJails brokenEnv http.ResponseWriter.fresh
        demoRequest).events = [] :=
  ⟨by decide, by decide,
    (getJails_failure_returns_nil brokenEnv http.ResponseWriter.fresh
      demoRequest (by decide)).1,
    by decide⟩

/-- C9: two upstreams whose answers differ in nothing but the status code get
the same result from `getJails` and the same response from `showJails`; and
whatever the status code of an answer, if its body decodes then `getJails`
succeeds and the template is executed on the records. -/
theorem getJails_ignores_status (env1 env2 : Env) (wr : http.ResponseWriter) (r : Request)
    (hc : env1.config = env2.config) (hu : env1.urlParse = env2.urlParse)
    (hs : env1.scan = env2.scan) (ht : env1.tmpl = env2.tmpl)
    (hd : ∀ request : Request,
      Except.map Response.Body (env1.Do request) = Except.map Response.Body (env2.Do request)) :
    getJails env1 = getJails env2 ∧
      showJails env1 wr r = showJails env2 wr r ∧
      ∀ (code : Nat) (body : GoString) (decoded : List JailAttributes),
        Answers env1 code body → json.Unmarshal env1.scan body = (decoded, none) →
        (getJails env1).err = none ∧
          (getJails env1).jails = decoded.map trimmed ∧
          rendered (showJails env1 wr r).events = [decoded.map trimmed] := by
  have hg := getJails_congr env1 env2 hc hu hs hd
  refine ⟨hg, by simp only [showJails, hg, ht], ?_⟩
  intro code body decoded ha hdec
  obtain ⟨u, hj⟩ := getJails_answered env1 code body decoded ha hdec
  have herr : (getJails env1).err = none := by rw [hj]
  refine ⟨herr, by rw [hj], ?_⟩
  rw [showJails_ok_events env1 wr r herr, rendered_append_execute, getJails_err_rendered, hj]
  rfl

theorem getJails_ignores_status_witness :
    (∀ request : Request, Except.map Response.StatusCode (rollEnv.Do request) = .ok 200) ∧
      (∀ request : Request, Except.map Response.StatusCode (deniedEnv.Do request) = .ok 401) ∧
      getJails rollEnv = getJails deniedEnv ∧
      (getJails deniedEnv).err = none ∧
      rendered (showJails deniedEnv http.ResponseWriter.fresh demoRequest).events
        = [rollDecoded.map trimmed] :=
  ⟨fun _ => rfl, fun _ => rfl,
    (getJails_ignores_status rollEnv deniedEnv http.ResponseWriter.fresh
      demoRequest rfl rfl rfl rfl (fun _ => rfl)).1,
    by decide, by decide⟩

/-- A template that fails before it writes anything: the browser gets status
500 and the line `Failed to render template`. -/
theorem showJails_render_error_unwritten (env : Env) (wr : http.ResponseWriter) (r : Request)
    (e : GoError) (herr : (getJails env).err = none)
    (htmpl : env.tmpl (getJails env).jails = ([], some e)) (hwr : wr.wroteHeader = false) :
    (showJails env wr r).response =
      .ok { handlerHeader := errorHeader wr.handlerHeader, wroteHeader := true, status := 500,
            header := errorHeader wr.handlerHeader,
            body := wr.body ++ (str "Failed to render template" ++ str "\n") } := by
  have hx : template.Execute env.tmpl wr (getJails env).jails = .ok (wr, some e) := by
    simp [template.Execute, htmpl, template.writeAll]
  rw [showJails_ok_broken env wr wr r e herr hx, http.Error_unwritten wr _ hwr]

/-- A template that fails after it has written something: the status already
sent is 200, and the line `Failed to render template` follows the part of the
page that was written. -/
theorem showJails_render_error_written (env : Env) (wr : http.ResponseWriter) (r : Request)
    (e : GoError) (c : GoString) (rest : List GoString) (herr : (getJails env).err = none)
    (htmpl : env.tmpl (getJails env).jails = (c :: rest, some e))
    (hwr : wr.wroteHeader = false) :
    (showJails env wr r).response =
      .ok { handlerHeader := errorHeader wr.handlerHeader, wroteHeader := true, status := 200,
            header := wr.handlerHeader,
            body := wr.body ++ (c :: rest).flatten ++
              (str "Failed to render template" ++ str "\n") } := by
  have hx : template.Execute env.tmpl wr (getJails env).jails =
      .ok ({ wr with wroteHeader := true, status := 200, header := wr.handlerHeader,
                     body := wr.body ++ (c :: rest).flatten }, some e) := by
    simp only [template.Execute, htmpl, template.writeAll_unwritten c rest wr hwr]
  rw [showJails_ok_broken env wr _ r e herr hx, http.Error_written _ _ rfl]

/-- C8 fails on the code: retrieval succeeds, the template writes `<table>`
to a fresh response and then fails; the response keeps status 200 and the
line `Failed to render template` is added to the page. -/
theorem showJails_render_failure_after_output :
    (getJails stallEnv).err = none ∧
      stallEnv.tmpl (getJails stallEnv).jails =
        ([str "<table>"], some (.other (str "template: can't evaluate field Uptime in type main.JailAttributes"))) ∧
      (showJails stallEnv http.ResponseWriter.fresh demoRequest).response =
        .ok { handlerHeader :=
                [(str "Content-Type", [str "text/plain; charset=utf-8"]),
                 (str "X-Content-Type-Options", [str "nosniff"])],
              wroteHeader := true, status := 200, header := [],
              body := str "<table>Failed to render template\n" } :=
  ⟨by decide, rfl, rfl⟩

/-- C2, as the code has it: when the upstream answers with a body that
`json.Unmarshal` rejects (text that is not JSON, or JSON that spells neither
`null` nor an array whose elements are `null` or objects in which every key
that addresses a field holds `null` or a value of the field's type),
`showJails` on an unwritten response returns without a panic, the response has
status 500 and carries the line `Failed to retrieve jails`, and the template
is not executed. -/
theorem showJails_decode_failure (env : Env) (code : Nat) (body : GoString)
    (wr : http.ResponseWriter) (r : Request) (h : Answers env code body)
    (hrej : ∀ v, env.scan body = .ok v → json.decodes v = false)
    (hwr : wr.wroteHeader = false) :
    (∃ w, (showJails env wr r).response = .ok w ∧ w.wroteHeader = true ∧ w.status = 500 ∧
        w.body = wr.body ++ (str "Failed to retrieve jails" ++ str "\n")) ∧
      rendered (showJails env wr r).events = [] := by
  have hbad : (json.Unmarshal env.scan body).2 ≠ none := by
    intro hnone
    obtain ⟨v, hv, hdec⟩ := (json.Unmarshal_ok_iff env.scan body).1 hnone
    rw [hrej v hv] at hdec
    exact absurd hdec (by simp)
  cases hdec : json.Unmarshal env.scan body with
  | mk decoded err =>
    cases err with
    | none => rw [hdec] at hbad; exact absurd rfl hbad
    | some e =>
      obtain ⟨u, hg⟩ := getJails_answered_err env code body decoded e h hdec
      have herr : (getJails env).err ≠ none := by rw [hg]; simp
      rw [showJails_of_err env wr r herr]
      exact ⟨⟨_, http.Error_unwritten wr _ hwr, rfl, rfl, rfl⟩, getJails_err_rendered env⟩

theorem showJails_decode_failure_witness :
    Answers brokenEnv 200 brokenBody ∧
      (∀ v, brokenEnv.scan brokenBody = .ok v → json.decodes v = false) ∧
      json.Unmarshal brokenEnv.scan brokenBody =
        ([{ JailAttributes.zero with Id := 1, Name := str "web" }, JailAttributes.zero],
          some (.UnmarshalTypeError (str "string") (str "jid"))) ∧
      ((∃ w, (showJails brokenEnv http.ResponseWriter.fresh demoRequest).response
            = .ok w ∧ w.wroteHeader = true ∧ w.status = 500 ∧
          w.body = http.ResponseWriter.fresh.body ++
            (str "Failed to retrieve jails" ++ str "\n")) ∧
        rendered (showJails brokenEnv http.ResponseWriter.fresh demoRequest).events = []) :=
  have hscan : brokenEnv.scan brokenBody = .ok (.array brokenElems) := rfl
  have hrej : ∀ v, brokenEnv.scan brokenBody = .ok v → json.decodes v = false := by
    intro v hv
    obtain rfl : JSON.array brokenElems = v := Except.ok.inj (hscan.symm.trans hv)
    decide
  ⟨⟨demoURL, rfl, rfl⟩, hrej, by decide,
    showJails_decode_failure brokenEnv 200 brokenBody http.ResponseWriter.fresh demoRequest
      ⟨demoURL, rfl, rfl⟩ hrej rfl⟩

/-- C2 fails on the code as it is worded: the body `null` is valid JSON and
is not an array, yet `json.Unmarshal` accepts it, `getJails` returns no error,
and `showJails` executes the template on the empty list and answers 200. -/
theorem showJails_null_body_rendered :
    Answers nullEnv 200 (str "null") ∧ nullEnv.scan (str "null") = .ok .null ∧
      (∀ elems, JSON.null ≠ JSON.array elems) ∧
      (getJails nullEnv).err = none ∧
      rendered (showJails nullEnv http.ResponseWriter.fresh demoRequest).events = [[]] ∧
      (showJails nullEnv http.ResponseWriter.fresh demoRequest).response =
        .ok { handlerHeader := [], wroteHeader := true, status := 200, header := [],
              body := str "<table>" } ∧
      ¬ ∃ w, (showJails nullEnv http.ResponseWriter.fresh demoRequest).response = .ok w ∧
        w.status = 500 := by
  refine ⟨⟨demoURL, rfl, rfl⟩, rfl, fun _ h => JSON.noConfusion h, by decide, by decide, rfl, ?_⟩
  rintro ⟨w, hw, hs⟩
  have hr : (showJails nullEnv http.ResponseWriter.fresh demoRequest).response =
      .ok { handlerHeader := [], wroteHeader := true, status := 200, header := [],
            body := str "<table>" } := rfl
  rw [hr] at hw
  obtain rfl := Except.ok.inj hw
  exact absurd hs (by decide)

/-- C5, as the code has it: when the upstream answers with a body that is a
JSON array of `n` elements `json.Unmarshal` accepts (each `null`, or an object
in which every key that addresses a field holds `null` or a value of the field's
type), `getJails` succeeds with exactly `n` records in the order of the array;
record `i` has `Id`, `Name`, `Status`, `Release`, `LastStarted` equal to the
last integer (for `Id`) or string under a key of element `i` that addresses
`jid`, `id`, `state`, `release`, `last_started` (a key addresses the tag it
equals, or else the tag it equals without regard to case; zero value when there
is no such value) and `Address` equal to that value for `ip4_addr` with a
leading `vnet0|` removed; every field but `Address` is as `json.Unmarshal`
decoded it; and this list is the one handed to the template. -/
theorem getJails_decodes_array (env : Env) (code : Nat) (body : GoString) (elems : List JSON)
    (wr : http.ResponseWriter) (r : Request)
    (h : Answers env code body) (hscan : env.scan body = .ok (.array elems))
    (hobj : elems.all json.elementDecodes = true) :
    (getJails env).err = none ∧ (getJails env).jails.length = elems.length ∧
      (∀ (i : Nat) (e : JSON), elems[i]? = some e →
        (getJails env).jails[i]? = some
          { Id := json.intUnder (str "jid") (json.members e),
            Name := json.textUnder (str "id") (json.members e),
            Status := json.textUnder (str "state") (json.members e),
            Release := json.textUnder (str "release") (json.members e),
            Address :=
              strings.TrimPrefix (json.textUnder (str "ip4_addr") (json.members e))
                (str "vnet0|"),
            LastStarted := json.textUnder (str "last_started") (json.members e) }) ∧
      (∃ decoded, json.Unmarshal env.scan body = (decoded, none) ∧
        decoded.length = elems.length ∧
        ∀ (i : Nat) (up : JailAttributes), decoded[i]? = some up →
          ∃ jail, (getJails env).jails[i]? = some jail ∧ jail.Id = up.Id ∧
            jail.Name = up.Name ∧ jail.Status = up.Status ∧ jail.Release = up.Release ∧
            jail.LastStarted = up.LastStarted) ∧
      rendered (showJails env wr r).events = [(getJails env).jails] := by
  have hdec := json.Unmarshal_decodes env.scan body elems hscan hobj
  obtain ⟨u, hg⟩ := getJails_answered env code body _ h hdec
  have herr : (getJails env).err = none := by rw [hg]
  refine ⟨herr, by rw [hg]; simp, ?_, ⟨_, hdec, by simp, ?_⟩, ?_⟩
  · intro i e hi
    rw [hg]
    simp only [List.getElem?_map, hi, Option.map_some']
    rfl
  · intro i up hi
    rw [hg]
    refine ⟨trimmed up, by simp only [List.getElem?_map, hi, Option.map_some'], ?_⟩
    simp [trimmed]
  · rw [showJails_ok_events env wr r herr, rendered_append_execute, getJails_err_rendered]
    rfl

theorem getJails_decodes_array_witness :
    Answers mixedEnv 200 mixedBody ∧ mixedEnv.scan mixedBody = .ok (.array mixedElems) ∧
      mixedElems.all json.elementDecodes = true ∧
      (getJails mixedEnv).jails =
        [ { Id := 5, Name := [], Status := [], Release := [],
            Address := str "10.0.0.5", LastStarted := [] },
          JailAttributes.zero,
          { Id := 2, Name := [], Status := str "up", Release := [],
            Address := [], LastStarted := [] } ] ∧
      rendered (showJails mixedEnv http.ResponseWriter.fresh demoRequest).events =
        [(getJails mixedEnv).jails] :=
  ⟨⟨demoURL, rfl, rfl⟩, rfl, by decide, by decide,
    (getJails_decodes_array mixedEnv 200 mixedBody mixedElems http.ResponseWriter.fresh
      demoRequest ⟨demoURL, rfl, rfl⟩ rfl (by decide)).2.2.2.2⟩

/-- C5 fails on the code as it is worded.  In `shoutBody` the one object has
no key `jid`, and the record comes back with `Id` 5, not the zero value, since
the key `JID` addresses the field.  In `clashBody` the one object has an integer
under `jid` and no key `id`, and `getJails` fails, since the key `Id` addresses
the field `Name` and holds a number. -/
theorem getJails_case_variant_key :
    (Answers shoutEnv 200 shoutBody ∧
      shoutEnv.scan shoutBody = .ok (.array [.object [(str "JID", num 5)]]) ∧
      (List.lookup (str "jid") [(str "JID", num 5)]).isNone = true ∧
      getJails shoutEnv =
        { events := [.Do demoRequest, .Close],
          jails := [{ JailAttributes.zero with Id := 5 }], err := none }) ∧
    (Answers clashEnv 200 clashBody ∧
      clashEnv.scan clashBody =
        .ok (.array [.object [(str "jid", num 1), (str "Id", num 7)]]) ∧
      (List.lookup (str "id") [(str "jid", num 1), (str "Id", num 7)]).isNone = true ∧
      (getJails clashEnv).err = some (.UnmarshalTypeError (str "number") (str "id")) ∧
      (getJails clashEnv).jails = []) :=
  ⟨⟨⟨demoURL, rfl, rfl⟩, rfl, by decide, by decide⟩,
    ⟨⟨demoURL, rfl, rfl⟩, rfl, by decide, by decide, by decide⟩⟩

/-- C6, as the code has it: when the request can be built, one call of
`getJails` calls `client.Do` exactly once, whether or not anything later fails,
on a request with method GET, the URL `url.Parse` makes of the configured text
(an empty port removed from its host), no body, and a header holding only
`Authorization` with the single value `Bearer <key>`; `showJails` makes that
one call and no other; and the requests that reach the wire are those the
client sends during that one call. -/
theorem getJails_single_call (env : Env) (wr : http.ResponseWriter) (r : Request)
    (request : Request)
    (h : http.NewRequest env.urlParse (str "GET") env.config.APIURL none = .ok request) :
    calls (getJails env).events =
        [{ request with
           Header := [(str "Authorization", [str "Bearer " ++ env.config.APIKey])] }] ∧
      request.Method = str "GET" ∧ request.Body = none ∧ request.Header = [] ∧
      (∃ u, env.urlParse env.config.APIURL = .ok u ∧
        request.URL = { u with Host := http.removeEmptyPort u.Host } ∧
        request.Host = http.removeEmptyPort u.Host) ∧
      calls (showJails env wr r).events = calls (getJails env).events ∧
      wire env (showJails env wr r).events =
        env.sent { request with
          Header := [(str "Authorization", [str "Bearer " ++ env.config.APIKey])] } := by
  cases hp : env.urlParse env.config.APIURL with
  | error e => rw [newRequest_fail env e hp] at h; exact absurd h (by simp)
  | ok u =>
    rw [newRequest_get env u hp] at h
    obtain rfl := Except.ok.inj h
    have hc := getJails_calls env u hp
    refine ⟨hc, rfl, rfl, rfl, ⟨u, rfl, rfl, rfl⟩, showJails_calls env wr r, ?_⟩
    rw [wire_eq_calls, showJails_calls, hc]
    simp [bearerRequest]

theorem getJails_single_call_witness :
    http.NewRequest downEnv.urlParse (str "GET") downEnv.config.APIURL none =
        .ok { Method := str "GET", URL := demoURL, Header := [], Body := none,
              Host := str "truenas.local" } ∧
      (getJails downEnv).err = some (.other (str "dial tcp: connection refused")) ∧
      calls (getJails downEnv).events =
        [{ Method := str "GET", URL := demoURL,
           Header := [(str "Authorization", [str "Bearer 1-secret"])],
           Body := none, Host := str "truenas.local" }] :=
  ⟨rfl, by decide,
    (getJails_single_call downEnv http.ResponseWriter.fresh demoRequest
      { Method := str "GET", URL := demoURL, Header := [], Body := none,
        Host := str "truenas.local" } rfl).1⟩

/-- C6 fails on the code as it is worded: the upstream of `movedEnv` answers
the request of `getJails` with a redirect, the default client follows it inside
the one call of `client.Do`, and two requests reach the wire, the second to a
URL that is not the configured one and without the `Authorization` header. -/
theorem getJails_redirect_sends_two :
    (∃ request,
      http.NewRequest movedEnv.urlParse (str "GET") movedEnv.config.APIURL none = .ok request) ∧
      (getJails movedEnv).err = none ∧
      calls (getJails movedEnv).events = [demoRequest] ∧
      wire movedEnv (getJails movedEnv).events = [demoRequest, followRequest] ∧
      followRequest.URL ≠ demoRequest.URL ∧
      followRequest.Header.Values (str "Authorization") = [] :=
  ⟨⟨_, rfl⟩, by decide, by decide, by decide, by decide, by decide⟩

/-- The example upstream, end to end: what `getJails` returns. -/
theorem getJails_rollEnv :
    getJails rollEnv =
      { events := [.Do demoRequest, .Close],
        jails :=
          [ { Id := 1, Name := str "web", Status := str "up", Release := str "13.2-RELEASE",
              Address := str "192.168.1.10/24", LastStarted := str "2024-10-25 09:00:00" },
            { Id := 2, Name := str "db", Status := [], Release := [],
              Address := str "vnet0|x", LastStarted := [] },
            { Id := 3, Name := str "dns", Status := [], Release := [],
              Address := str "vnet1|a,vnet0|b", LastStarted := [] },
            { Id := 0, Name := str "off", Status := str "down", Release := [],
              Address := str "vnet0", LastStarted := [] } ],
        err := none } := by
  decide

/-- The example upstream, end to end: what `showJails` answers. -/
theorem showJails_rollEnv :
    (showJails rollEnv http.ResponseWriter.fresh demoRequest).response =
      .ok { handlerHeader := [], wroteHeader := true, status := 200, header := [],
            body := str "<table>" } := by
  rfl

/-- Keys are matched exactly first and without regard to case otherwise. -/
theorem findField_examples :
    json.findField (str "jid") = some .Id ∧ json.findField (str "JID") = some .Id ∧
      json.findField (str "Id") = some .Name ∧ json.findField (str "ſtate") = some .Status ∧
      json.findField (str "address") = none ∧ json.findField (str "ip4_addr") = some .Address := by
  decide

/-- A body that is not JSON, end to end: status 500, the template is not
executed. -/
theorem showJails_gatewayEnv :
    (getJails gatewayEnv).err ≠ none ∧
      rendered (showJails gatewayEnv http.ResponseWriter.fresh demoRequest).events
        = [] ∧
      (showJails gatewayEnv http.ResponseWriter.fresh demoRequest).response =
        .ok { handlerHeader :=
                [(str "Content-Type", [str "text/plain; charset=utf-8"]),
                 (str "X-Content-Type-Options", [str "nosniff"])],
              wroteHeader := true, status := 500,
              header :=
                [(str "Content-Type", [str "text/plain; charset=utf-8"]),
                 (str "X-Content-Type-Options", [str "nosniff"])],
              body := str "Failed to retrieve jails\n" } :=
  ⟨by decide, by decide, rfl⟩

/-- An upstream answer with status 401 and a decodable body, end to end: the
page is written with status 200. -/
theorem showJails_deniedEnv :
    (showJails deniedEnv http.ResponseWriter.fresh demoRequest).response =
      .ok { handlerHeader := [], wroteHeader := true, status := 200, header := [],
            body := str "<table>" } :=
  rfl

end Jrc
